import Mathlib

/-!
Verification of the Master coordination state machine of the ATE test-cell
controller (`ATE/TES/apps/masterApp/master_application.py`).

The Python source is shallowly embedded: the per-site testing sub-FSM
(`TestingSiteMachine` / `TestingSiteModel`), the multi-site testing model
(`MultiSiteTestingModel`), and the relevant parts of the top-level
`MasterApplication` hierarchical machine become pure Lean functions over
explicit state records.  Exceptions raised by the Python code (the
`transitions` library's `MachineError` on an invalid trigger, `KeyError` on a
missing dict key, and the explicit `RuntimeError` on a resource-request
mismatch) are modelled with an error type threaded through each handler;
because Python mutates objects in place before an exception propagates, each
handler returns the (possibly partially updated) state *together with* the
optional error, rather than an `Except` that would discard the mutations.
-/

namespace ATEMaster

/-- Errors a handler can raise.  `machineErr` is the `transitions` library's
`MachineError` (invalid trigger for the current state), `keyErr` a Python
`KeyError`, and `mismatchErr site offender` the `RuntimeError` raised by
`MultiSiteTestingModel.handle_resource_request` when `offender`'s stored
resource request differs from the request newly made by `site`; `valueErr`
is a Python `ValueError` (failed tuple unpacking). -/
inductive MErr where
  | machineErr (trigger : String)
  | keyErr (key : String)
  | mismatchErr (requester offender : String)
  | valueErr (msg : String)
deriving DecidableEq, Repr

/-- States of the per-site testing sub-FSM (`TestingSiteMachine.states`). -/
inductive SiteState where
  | inprogress
  | waiting_for_resource
  | waiting_for_testresult
  | waiting_for_idle
  | completed
deriving DecidableEq, Repr

/-- A resource request message.  In the source it is a dict
`{resource_id, config}` compared structurally with `!=`; the config payload is
abstracted to an integer, which preserves structural (in)equality. -/
structure ResourceRequest where
  resource_id : String
  config : Int
deriving DecidableEq, Repr

/-- `TestingSiteModel`: one per-site sub-FSM instance together with its
attached data (the machine state lives on the model object). -/
structure TestingSiteModel where
  site_id : String
  state : SiteState
  resource_request : Option ResourceRequest
  testresult : Option Int
deriving DecidableEq, Repr

/-- A freshly constructed `TestingSiteModel(site_id)`: initial machine state
`inprogress`, no stored request, no stored testresult. -/
def TestingSiteModel.init (sid : String) : TestingSiteModel :=
  ⟨sid, .inprogress, none, none⟩

/-- Trigger `resource_requested`: `inprogress → waiting_for_resource`,
`before='set_requested_resource'`.  Any other source state raises
`MachineError`. -/
def TestingSiteModel.resource_requested (s : TestingSiteModel)
    (req : ResourceRequest) : Except MErr TestingSiteModel :=
  match s.state with
  | .inprogress =>
      .ok { s with state := .waiting_for_resource, resource_request := some req }
  | _ => .error (.machineErr "resource_requested")

/-- Trigger `resource_ready`: `waiting_for_resource → inprogress`,
`before='clear_requested_resource'`. -/
def TestingSiteModel.resource_ready (s : TestingSiteModel) :
    Except MErr TestingSiteModel :=
  match s.state with
  | .waiting_for_resource =>
      .ok { s with state := .inprogress, resource_request := none }
  | _ => .error (.machineErr "resource_ready")

/-- Trigger `testresult_received`: `inprogress | waiting_for_resource →
waiting_for_idle` and `waiting_for_testresult → completed`, both with
`before='set_testresult'`. -/
def TestingSiteModel.testresult_received (s : TestingSiteModel) (tr : Int) :
    Except MErr TestingSiteModel :=
  match s.state with
  | .inprogress =>
      .ok { s with state := .waiting_for_idle, testresult := some tr }
  | .waiting_for_resource =>
      .ok { s with state := .waiting_for_idle, testresult := some tr }
  | .waiting_for_testresult =>
      .ok { s with state := .completed, testresult := some tr }
  | _ => .error (.machineErr "testresult_received")

/-- Trigger `status_idle`: `inprogress | waiting_for_resource →
waiting_for_testresult` and `waiting_for_idle → completed`. -/
def TestingSiteModel.status_idle (s : TestingSiteModel) :
    Except MErr TestingSiteModel :=
  match s.state with
  | .inprogress => .ok { s with state := .waiting_for_testresult }
  | .waiting_for_resource => .ok { s with state := .waiting_for_testresult }
  | .waiting_for_idle => .ok { s with state := .completed }
  | _ => .error (.machineErr "status_idle")

/-- Trigger `reset`: `completed → inprogress`, `before='clear_testresult'`
(note: the stored `resource_request` is *not* cleared by this trigger). -/
def TestingSiteModel.resetTrigger (s : TestingSiteModel) :
    Except MErr TestingSiteModel :=
  match s.state with
  | .completed => .ok { s with state := .inprogress, testresult := none }
  | _ => .error (.machineErr "reset")

/-- The events a single site can feed into its sub-FSM during one "next"
cycle (the `reset` trigger belongs to the inter-cycle phase and is driven by
the coordinator, not by site events). -/
inductive SiteEvent where
  | resource_requested (req : ResourceRequest)
  | resource_ready
  | testresult_received (tr : Int)
  | status_idle
deriving DecidableEq, Repr

/-- Dispatch one site event to the sub-FSM triggers. -/
def siteStep (s : TestingSiteModel) : SiteEvent → Except MErr TestingSiteModel
  | .resource_requested req => s.resource_requested req
  | .resource_ready => s.resource_ready
  | .testresult_received tr => s.testresult_received tr
  | .status_idle => s.status_idle

/-- Run a list of site events through the sub-FSM; the first raised
`MachineError` aborts the run. -/
def siteRun (s : TestingSiteModel) : List SiteEvent → Except MErr TestingSiteModel
  | [] => .ok s
  | e :: es =>
    match siteStep s e with
    | .ok s' => siteRun s' es
    | .error er => .error er

/-- Number of `testresult_received` events in a site-event list. -/
def countTestresults (es : List SiteEvent) : Nat :=
  es.countP fun e => match e with
    | .testresult_received _ => true
    | _ => false

/-- Number of `status_idle` events in a site-event list. -/
def countIdles (es : List SiteEvent) : Nat :=
  es.countP fun e => match e with
    | .status_idle => true
    | _ => false

/-- How many `testresult_received` / `status_idle` events have been absorbed
to reach a given sub-FSM state (reading the transition table off
`TestingSiteMachine`). -/
def charge : SiteState → Nat × Nat
  | .inprogress => (0, 0)
  | .waiting_for_resource => (0, 0)
  | .waiting_for_idle => (1, 0)
  | .waiting_for_testresult => (0, 1)
  | .completed => (1, 1)

/-- The per-event increment of `charge`. -/
def eventCharge : SiteEvent → Nat × Nat
  | .testresult_received _ => (1, 0)
  | .status_idle => (0, 1)
  | _ => (0, 0)

/-- Flattened states of the top-level hierarchical `MasterApplication` machine.
The `testing` state's children are the `MultiSiteTestingMachine` states; the
`transitions` library names the resulting nested states
`testing_inprogress`, `testing_waiting_for_resource`, `testing_completed`. -/
inductive MState where
  | startup
  | connecting
  | initialized
  | loading
  | ready
  | testing_inprogress
  | testing_waiting_for_resource
  | testing_completed
  | finished
  | unloading
  | error
  | softerror
deriving DecidableEq, Repr

/-- The string `self.state` of a master model in the given state. -/
def MState.name : MState → String
  | .startup => "startup"
  | .connecting => "connecting"
  | .initialized => "initialized"
  | .loading => "loading"
  | .ready => "ready"
  | .testing_inprogress => "testing_inprogress"
  | .testing_waiting_for_resource => "testing_waiting_for_resource"
  | .testing_completed => "testing_completed"
  | .finished => "finished"
  | .unloading => "unloading"
  | .error => "error"
  | .softerror => "softerror"

/-- `self.is_testing(allow_substates=True)`. -/
def MState.isTesting : MState → Bool
  | .testing_inprogress => true
  | .testing_waiting_for_resource => true
  | .testing_completed => true
  | _ => false

/-- Triggers of the top-level machine (`MasterApplication.transitions`) plus
the three embedded `MultiSiteTestingMachine` triggers. -/
inductive Trigger where
  | startup_done
  | all_sites_detected
  | bad_interface_version
  | load_command
  | all_siteloads_complete
  | usersettings_command
  | next
  | unload
  | all_sitetests_complete
  | all_siteunloads_complete
  | getresults
  | getlogs
  | getlogfile
  | testapp_disconnected
  | timeout
  | on_error
  | reset
  | all_sites_waiting_for_resource
  | resource_config_applied
  | all_sites_completed
deriving DecidableEq, Repr

/-- Trigger name, as used in the `MachineError` message. -/
def Trigger.name : Trigger → String
  | .startup_done => "startup_done"
  | .all_sites_detected => "all_sites_detected"
  | .bad_interface_version => "bad_interface_version"
  | .load_command => "load_command"
  | .all_siteloads_complete => "all_siteloads_complete"
  | .usersettings_command => "usersettings_command"
  | .next => "next"
  | .unload => "unload"
  | .all_sitetests_complete => "all_sitetests_complete"
  | .all_siteunloads_complete => "all_siteunloads_complete"
  | .getresults => "getresults"
  | .getlogs => "getlogs"
  | .getlogfile => "getlogfile"
  | .testapp_disconnected => "testapp_disconnected"
  | .timeout => "timeout"
  | .on_error => "on_error"
  | .reset => "reset"
  | .all_sites_waiting_for_resource => "all_sites_waiting_for_resource"
  | .resource_config_applied => "resource_config_applied"
  | .all_sites_completed => "all_sites_completed"

/-- The transition table of `MasterApplication` (flattened): for a trigger
fired in a source state, the destination state, or `none` when the
`transitions` library would raise `MachineError`.  `dest '='` self-loops map a
state to itself; `source '*'` rows accept every state; the three nested
triggers are only valid inside `testing` (the nested machine's `'*'` expands
to its own states when embedded as children). -/
def validDest (s : MState) : Trigger → Option MState
  | .startup_done => if s = .startup then some .connecting else none
  | .all_sites_detected => if s = .connecting then some .initialized else none
  | .bad_interface_version => if s = .connecting then some .error else none
  | .load_command => if s = .initialized then some .loading else none
  | .all_siteloads_complete => if s = .loading then some .ready else none
  | .usersettings_command =>
      if s = .initialized ∨ s = .ready then some s else none
  | .next => if s = .ready then some .testing_inprogress else none
  | .unload => if s = .ready then some .unloading else none
  | .all_sitetests_complete =>
      if s = .testing_completed then some .ready else none
  | .all_siteunloads_complete =>
      if s = .unloading then some .initialized else none
  | .getresults => if s = .ready then some .ready else none
  | .getlogs => some s
  | .getlogfile => some s
  | .testapp_disconnected => some .softerror
  | .timeout => some .softerror
  | .on_error => some .softerror
  | .reset => if s = .softerror then some .connecting else none
  | .all_sites_waiting_for_resource =>
      if s = .testing_inprogress then some .testing_waiting_for_resource else none
  | .resource_config_applied =>
      if s = .testing_waiting_for_resource then some .testing_inprogress else none
  | .all_sites_completed =>
      if s.isTesting then some .testing_completed else none

/-- Modelled from the spec: `SequenceContainer`
(`ATE/TES/apps/masterApp/sequence_container.py` is not under `src/`; §4.2 of
the spec defines its contract).  Per-site progress is the number of expected
states already matched; an off-sequence report marks the tracker dead
("unusable for completion", though `on_unexpected` keeps firing). -/
structure SequenceContainer where
  expected_states : List String
  progress : List (String × Nat)
  dead : Bool
deriving DecidableEq, Repr

/-- Construct a `SequenceContainer(expected_states, site_ids, ...)`: every
site starts with no state matched. -/
def SequenceContainer.init (expected : List String) (sites : List String) :
    SequenceContainer :=
  ⟨expected, sites.map fun sid => (sid, 0), false⟩

/-- Modelled from the spec: what `SequenceContainer.trigger_transition`
reports back to its owner. -/
inductive TrackerEvent where
  | advanced
  | completedAll
  | ignored
  | unexpected
deriving DecidableEq, Repr

/-- Modelled from the spec: `trigger_transition(site, state)`.  If `state` is
the site's next expected state, advance; if every site has then matched the
whole sequence (and the tracker is not dead), report completion (invoking
`on_complete` exactly once); a repeat of the last matched state is ignored;
anything else is off-sequence: `on_unexpected` fires and the tracker dies. -/
def SequenceContainer.trigger_transition (c : SequenceContainer)
    (site state : String) : SequenceContainer × TrackerEvent :=
  match c.progress.find? (fun p => p.1 = site) with
  | none => (c, .unexpected)
  | some (_, i) =>
    if c.expected_states.get? i = some state then
      let newProgress :=
        c.progress.map (fun p => if p.1 = site then (p.1, i + 1) else p)
      let c' := { c with progress := newProgress }
      if c'.progress.all (fun p => p.2 = c.expected_states.length) ∧ ¬ c.dead then
        (c', .completedAll)
      else
        (c', .advanced)
    else if 0 < i ∧ (c.expected_states.get? (i - 1) = some state) then
      (c, .ignored)
    else
      ({ c with dead := true }, .unexpected)

/-- Which callback pair `pendingTransitionsControl` currently carries; the
master installs a fresh `SequenceContainer` with phase-specific lambdas in
`init` / `on_allsitesdetected` / `on_loadcommand_issued` /
`on_unload_command_issued` / `on_reset_received`. -/
inductive CtrlCbs where
  /-- `init` / `on_reset_received`: `(all_sites_detected, on_unexpected_control_state)`. -/
  | startupCbs
  /-- `on_allsitesdetected`: `(None, on_error "Bad statetransition of control ... during sync ...")`. -/
  | syncedCbs
  /-- `on_loadcommand_issued`: `(None, on_error "... during load ...")`. -/
  | loadCbs
  /-- `on_unload_command_issued`: `(all_siteunloads_complete, on_error "... during unload ...")`. -/
  | unloadCbs
deriving DecidableEq, Repr

/-- Which callback pair `pendingTransitionsTest` currently carries (the test
tracker is never consulted by the handlers modelled here, but the commands
reinstall it, so it is carried along). -/
inductive TestCbs where
  | initCbs
  | loadCbs
  | nextCbs
  | unloadCbs
deriving DecidableEq, Repr

/-- One user-setting value: `{'active': bool, 'value': int}`. -/
structure SettingValue where
  active : Bool
  value : Int
deriving DecidableEq, Repr

/-- One entry of a `usersettings` command payload: `{name, active, value?}`.
The optional `value` field carries a JSON integer when present. -/
structure SettingEntry where
  name : String
  active : Bool
  value : Option Int
deriving DecidableEq, Repr

/-- Association-list lookup (Python `d[k]` / `d.get(k)`). -/
def lookupAssoc {α : Type} (l : List (String × α)) (k : String) : Option α :=
  match l.find? (fun p => p.1 = k) with
  | some p => some p.2
  | none => none

/-- Association-list update (Python `d[k] = v` / `d.update({k: v})`):
replaces the value at `k` keeping its position, or appends when `k` is
absent (dict keys are unique, insertion-ordered). -/
def assocSet {α : Type} : List (String × α) → String → α → List (String × α)
  | [], k, v => [(k, v)]
  | p :: rest, k, v =>
    if p.1 = k then (k, v) :: rest else p :: assocSet rest k v

/-- `INTERFACE_VERSION = 1` (master_application.py, line 24). -/
def INTERFACE_VERSION : Int := 1

/-- The state of a `MasterApplication` object, restricted to the fields the
verified handlers read or write.  Out of scope (per the spec's §1 collaborator
list) and therefore elided: the transport/connection handler, the timeout
handle (timers are scheduler callbacks), the STDF aggregator, the settings
file, the log buffer, and the result collectors. -/
structure Master where
  /-- Current flattened FSM state (`self.state`). -/
  state : MState
  /-- `self.prev_state`; `''` initially, hence an `Option`. -/
  prev_state : Option MState
  /-- `self.configuredSites`. -/
  configuredSites : List String
  /-- `self.siteStates`: last reported control state per configured site. -/
  siteStates : List (String × String)
  /-- `self._site_models`: the per-site testing sub-FSMs, in `site_ids` order. -/
  sites : List (String × TestingSiteModel)
  /-- `self.error_message`. -/
  error_message : String
  /-- `self.pendingTransitionsControl` (`SequenceContainer` state). -/
  pendingTransitionsControl : SequenceContainer
  /-- Which callback pair `pendingTransitionsControl` was constructed with. -/
  ctrlCbs : CtrlCbs
  /-- `self.pendingTransitionsTest` (`SequenceContainer` state). -/
  pendingTransitionsTest : SequenceContainer
  /-- Which callback pair `pendingTransitionsTest` was constructed with. -/
  testCbs : TestCbs
  /-- `self.user_settings`. -/
  user_settings : List (String × SettingValue)
  /-- `self.loaded_lot_number`. -/
  loaded_lot_number : String
  /-- Dirty flags read by the UI background task. -/
  are_usersettings_required : Bool
  are_testresults_required : Bool
  are_log_data_required : Bool
  is_logfile_required : Bool
  is_status_reporting_required : Bool
deriving DecidableEq, Repr

/-- `self.external_state`: collapses the three `testing` substates to the
single name `'testing'`, every other state verbatim. -/
def external_state (m : Master) : String :=
  if m.state.isTesting then "testing" else m.state.name

/-- `self.publish_state()`: deduplicates against `self.prev_state` (the
*internal* state name), then publishes the external state and marks status
reporting required.  Returns the published payloads. -/
def publish_state (m : Master) : Master × List String :=
  if m.prev_state = some m.state then (m, [])
  else
    ({ m with prev_state := some m.state, is_status_reporting_required := true },
     [external_state m])

/-- Observable outcome of one handler invocation: the updated master object,
the states published via `connectionHandler.publish_state`, the arguments of
the `apply_resource_config` invocations, the number of
`all_sitetests_complete()` notifications to the coordinator, and the optional
exception that propagated out of the handler (the object keeps all mutations
performed before the raise, as in Python). -/
structure MOut where
  master : Master
  published : List String
  applies : List (Option ResourceRequest)
  completes : Nat
  err : Option MErr
deriving DecidableEq, Repr

/-- A handler step that does nothing observable. -/
def MOut.done (m : Master) : MOut := ⟨m, [], [], 0, none⟩

/-- A handler step that raises `e`, keeping the mutations in `m`. -/
def MOut.raise (m : Master) (e : MErr) : MOut := ⟨m, [], [], 0, some e⟩

/-- Sequencing: run `f` on the result of `o` unless `o` already raised. -/
def MOut.andThen (o : MOut) (f : Master → MOut) : MOut :=
  match o.err with
  | some _ => o
  | none =>
    let o2 := f o.master
    ⟨o2.master, o.published ++ o2.published, o.applies ++ o2.applies,
      o.completes + o2.completes, o2.err⟩

/-- Fire a trigger on the top-level machine: on a valid transition the state
changes, then the transition's `after` callback runs, then (when `after` did
not raise) the machine-level `after_state_change='publish_state'` hook; an
invalid trigger raises `MachineError` before any state change. -/
def fireWith (m : Master) (t : Trigger) (after : Master → Master × Option MErr) :
    MOut :=
  match validDest m.state t with
  | none => MOut.raise m (.machineErr t.name)
  | some d =>
    let m1 := { m with state := d }
    match after m1 with
    | (m2, some e) => MOut.raise m2 e
    | (m2, none) =>
      let (m3, pub) := publish_state m2
      ⟨m3, pub, [], 0, none⟩

/-- Fire a trigger whose `after` callback does nothing that is modelled. -/
def fire (m : Master) (t : Trigger) : MOut :=
  fireWith m t (fun m1 => (m1, none))

/-- `self._site_models[site_id]` (a `KeyError` when the site is unknown). -/
def getSite (m : Master) (sid : String) : Except MErr TestingSiteModel :=
  match m.sites.find? (fun p => p.1 = sid) with
  | some p => .ok p.2
  | none => .error (.keyErr sid)

/-- In-place mutation of `self._site_models[site_id]` (dict order kept). -/
def setSite (m : Master) (sid : String) (s : TestingSiteModel) : Master :=
  { m with sites := m.sites.map fun p => if p.1 = sid then (sid, s) else p }

/-- `MultiSiteTestingModel.is_waiting_for_resource`: compares `self.state`
against the literal nested-state name `'testing_waiting_for_resource'` (the
"HACK" at line 196 of the source). -/
def is_waiting_for_resource (m : Master) : Bool :=
  m.state = .testing_waiting_for_resource

/-- `MultiSiteTestingModel.handle_reset`: reset every *completed* per-site
sub-FSM back to `inprogress` (the `reset` trigger clears the testresult but
not a stale `resource_request`). -/
def handle_reset (m : Master) : Master :=
  { m with sites := m.sites.map fun p =>
      if p.2.state = .completed then
        (p.1, { p.2 with state := .inprogress, testresult := none })
      else p }

/-- `_check_for_all_remaing_sites_waiting_for_resource`: when not already in
`waiting_for_resource`, no site is still `inprogress`, and at least one site
is `waiting_for_resource`, fire `all_sites_waiting_for_resource` and invoke
`apply_resource_config` with the first waiting site's stored request. -/
def check_remaining_waiting (m : Master) : MOut :=
  if is_waiting_for_resource m then MOut.done m
  else if m.sites.any (fun p => p.2.state = .inprogress) then MOut.done m
  else
    match m.sites.filter (fun p => p.2.state = .waiting_for_resource) with
    | [] => MOut.done m
    | w :: _ =>
      let o := fire m .all_sites_waiting_for_resource
      match o.err with
      | some _ => o
      | none => { o with applies := o.applies ++ [w.2.resource_request] }

/-- `_check_for_all_sites_completed`: when all per-site sub-FSMs are
`completed`, fire `all_sites_completed` on the nested machine and then notify
the coordinator (`all_sitetests_complete`, whose `after` callback
`on_allsitetestscomplete` disarms the timeout and runs `handle_reset`).
Returns the observable outcome and whether the completion branch was taken. -/
def check_all_completed (m : Master) : MOut × Bool :=
  if m.sites.all (fun p => p.2.state = .completed) then
    let o := (fire m .all_sites_completed).andThen fun m1 =>
      fireWith m1 .all_sitetests_complete (fun m2 => (handle_reset m2, none))
    ({ o with completes := o.completes + 1 }, true)
  else
    (MOut.done m, false)

/-- The loop condition of `handle_resource_request`:
`site.resource_request is not None and site.resource_request != resource_request`. -/
def mismatchPred (req : ResourceRequest) (q : String × TestingSiteModel) : Bool :=
  match q.2.resource_request with
  | some r => decide (r ≠ req)
  | none => false

/-- `MultiSiteTestingModel.handle_resource_request`: transition the
requesting site, raise `RuntimeError` when any site's stored request differs
from the new one (scanning `_site_models` in order), else run the quorum
check. -/
def handle_resource_request (m : Master) (sid : String)
    (req : ResourceRequest) : MOut :=
  match getSite m sid with
  | .error e => MOut.raise m e
  | .ok site =>
    match site.resource_requested req with
    | .error e => MOut.raise m e
    | .ok site' =>
      let m1 := setSite m sid site'
      match m1.sites.find? (mismatchPred req) with
      | some off => MOut.raise m1 (.mismatchErr sid off.1)
      | none => check_remaining_waiting m1

/-- The common tail of `handle_testresult` and `handle_status_idle` after
the per-site trigger:
`if not self._check_for_all_sites_completed(): self._check_for_all_remaing_sites_waiting_for_resource()`,
run on the master with the triggered site stored back. -/
def afterSiteEvent (m : Master) (sid : String) (site' : TestingSiteModel) :
    MOut :=
  let m1 := setSite m sid site'
  match check_all_completed m1 with
  | (o, true) => o
  | (_, false) => check_remaining_waiting m1

/-- `MultiSiteTestingModel.handle_testresult`. -/
def handle_testresult (m : Master) (sid : String) (tr : Int) : MOut :=
  match getSite m sid with
  | .error e => MOut.raise m e
  | .ok site =>
    match site.testresult_received tr with
    | .error e => MOut.raise m e
    | .ok site' => afterSiteEvent m sid site'

/-- `MultiSiteTestingModel.handle_status_idle`. -/
def handle_status_idle (m : Master) (sid : String) : MOut :=
  match getSite m sid with
  | .error e => MOut.raise m e
  | .ok site =>
    match site.status_idle with
    | .error e => MOut.raise m e
    | .ok site' => afterSiteEvent m sid site'

/-- `MultiSiteTestingModel._on_resource_config_applied` (the `done_cb` passed
to `apply_resource_config`): ignored when the FSM has already left
`waiting_for_resource`; otherwise fire `resource_config_applied` and push
`resource_ready` into every site still in `waiting_for_resource`. -/
def on_resource_config_applied (m : Master) : MOut :=
  if ¬ is_waiting_for_resource m then MOut.done m
  else
    (fire m .resource_config_applied).andThen fun m1 =>
      MOut.done { m1 with sites := m1.sites.map fun p =>
        if p.2.state = .waiting_for_resource then
          (p.1, { p.2 with state := .inprogress, resource_request := none })
        else p }

/-- The per-site events of one "next" cycle, as dispatched to the
`MultiSiteTestingModel` handlers, plus the arrival of the resource
configuration callback. -/
inductive MEvent where
  | resourceRequest (site : String) (req : ResourceRequest)
  | testResult (site : String) (tr : Int)
  | statusIdle (site : String)
  | configApplied
deriving DecidableEq, Repr

/-- One coordinator step on a per-site event. -/
def mstep (m : Master) : MEvent → MOut
  | .resourceRequest sid req => handle_resource_request m sid req
  | .testResult sid tr => handle_testresult m sid tr
  | .statusIdle sid => handle_status_idle m sid
  | .configApplied => on_resource_config_applied m

/-- Run a list of per-site events; an exception aborts the cycle (in the
running system it propagates to the transport layer and lands the master in
`softerror`).  Returns the final master and the total number of
`apply_resource_config` invocations. -/
def runEvents (m : Master) : List MEvent → Except MErr (Master × Nat)
  | [] => .ok (m, 0)
  | e :: es =>
    let o := mstep m e
    match o.err with
    | some er => .error er
    | none =>
      match runEvents o.master es with
      | .ok (mf, n) => .ok (mf, o.applies.length + n)
      | .error er => .error er

/-- Every state the run passes through (head = initial state). -/
def runStates (m : Master) : List MEvent → List Master
  | [] => [m]
  | e :: es => m :: runStates (mstep m e).master es

/-- The quorum condition of the resource-negotiation protocol on a list of
per-site sub-FSMs: every one is non-`inprogress` and at least one is
`waiting_for_resource`. -/
def QuorumSites (l : List (String × TestingSiteModel)) : Bool :=
  l.all (fun p => p.2.state ≠ .inprogress) &&
    l.any (fun p => p.2.state = .waiting_for_resource)

/-- The quorum condition of the resource-negotiation protocol. -/
def Quorum (m : Master) : Bool := QuorumSites m.sites

/-- A `control_status` report from a site: carries `interface_version` and a
control `state` string. -/
structure ControlStatusMsg where
  interface_version : Int
  state : String
deriving DecidableEq, Repr

/-- Fire the `on_error` trigger (`'*' → softerror`,
`after='on_error_occurred'`, which records the message). -/
def fire_on_error (m : Master) (msg : String) : MOut :=
  fireWith m .on_error (fun m1 => ({ m1 with error_message := msg }, none))

/-- The `on_complete` callback `pendingTransitionsControl` was built with.
`startupCbs` fires `all_sites_detected` (whose `after`,
`on_allsitesdetected`, installs the trap tracker, clears the error message
and disarms the timeout); `unloadCbs` fires `all_siteunloads_complete`
(whose `after` clears the result buffer — elided — and the lot number); the
other phases install `lambda: None`. -/
def ctrl_on_complete (m : Master) : MOut :=
  match m.ctrlCbs with
  | .startupCbs =>
    fireWith m .all_sites_detected (fun m1 =>
      ({ m1 with
          pendingTransitionsControl :=
            SequenceContainer.init ["idle"] m1.configuredSites,
          ctrlCbs := .syncedCbs,
          error_message := "" }, none))
  | .syncedCbs => MOut.done m
  | .loadCbs => MOut.done m
  | .unloadCbs =>
    fireWith m .all_siteunloads_complete (fun m1 =>
      ({ m1 with loaded_lot_number := "" }, none))

/-- The `on_unexpected` callback `pendingTransitionsControl` was built with.
During startup/reset it is `on_unexpected_control_state` (log + record the
message, no transition); in the other phases it is `on_error(...)`. -/
def ctrl_on_unexpected (m : Master) (site state : String) : MOut :=
  match m.ctrlCbs with
  | .startupCbs =>
    MOut.done { m with error_message := s!"Site {site} reported state {state}" }
  | .syncedCbs =>
    fire_on_error m s!"Bad statetransition of control {site} during sync to {state}"
  | .loadCbs =>
    fire_on_error m s!"Bad statetransition of control {site} during load to {state}"
  | .unloadCbs =>
    fire_on_error m s!"Bad statetransition of control {site} during unload to {state}"

/-- The `try` block of `on_control_status_changed`: update `siteStates` on
change and forward to the control sequence tracker (whose callbacks may fire
master triggers); a `KeyError` (unconfigured site) is caught by the
surrounding `except KeyError` and converted to `on_error`. -/
def control_status_try (m1 : Master) (siteid newstatus : String) : MOut :=
  match lookupAssoc m1.siteStates siteid with
  | none =>
    -- KeyError from `self.siteStates[siteid]`, caught by `except KeyError`
    fire_on_error m1 s!"Site id received: {siteid} is not configured"
  | some cur =>
    if cur ≠ newstatus then
      let m2 := { m1 with siteStates := assocSet m1.siteStates siteid newstatus }
      let tr := m2.pendingTransitionsControl.trigger_transition siteid newstatus
      let m3 := { m2 with pendingTransitionsControl := tr.1 }
      match tr.2 with
      | .completedAll => ctrl_on_complete m3
      | .unexpected => ctrl_on_unexpected m3 siteid newstatus
      | _ => MOut.done m3
    else MOut.done m1

/-- `MasterApplication.on_control_status_changed`: check the interface
version (a mismatch fires `bad_interface_version`, which only `connecting`
accepts — elsewhere the `MachineError` propagates before the `try` block);
then run the `try` block. -/
def on_control_status_changed (m : Master) (siteid : String)
    (msg : ControlStatusMsg) : MOut :=
  let o1 :=
    if msg.interface_version ≠ INTERFACE_VERSION then
      fire m .bad_interface_version
    else MOut.done m
  o1.andThen fun m1 => control_status_try m1 siteid msg.state

/-- The value stored for one settings entry:
`int(setting['value']) if setting.get('value') else -1`.  Python truthiness
makes `setting.get('value')` falsy both when `value` is absent and when it is
the integer `0`. -/
def coerce_setting_value : Option Int → Int
  | some n => if n ≠ 0 then n else -1
  | none => -1

/-- Modelled from the spec: `UserSettings.get_defaults`
(`ATE/TES/apps/masterApp/user_settings.py` is not under `src/`).  §3 of the
spec: "a mapping from a fixed enumerated set of setting names to
`{active: bool, value: int}`; defaults exist for every name".  Neither the
spec nor `src/` enumerates the names, so a representative fixed mapping
stands in. -/
def UserSettings_get_defaults : List (String × SettingValue) :=
  [("stop_on_fail", ⟨false, -1⟩), ("single_step", ⟨false, -1⟩)]

/-- `MasterApplication._extract_settings(settings)`: start from the defaults
and overlay one field per payload entry (`modified_settings.update(field)`),
coercing each entry's value. -/
def extract_settings (defaults : List (String × SettingValue))
    (settings : List SettingEntry) : List (String × SettingValue) :=
  settings.foldl
    (fun acc s => assocSet acc s.name ⟨s.active, coerce_setting_value s.value⟩)
    defaults

/-- `MasterApplication.modify_user_settings`:
`self.user_settings.update(self._extract_settings(settings))`, persistence
elided, then mark the settings dirty. -/
def modify_user_settings (m : Master) (settings : List SettingEntry) : Master :=
  { m with
      user_settings :=
        (extract_settings UserSettings_get_defaults settings).foldl
          (fun acc p => assocSet acc p.1 p.2) m.user_settings,
      are_usersettings_required := true }

/-- An operator command message (`json_data`): the `command` verb plus the
payload fields the modelled handlers read. -/
structure CommandMsg where
  command : Option String
  lot_number : Option String
  payload : Option (List SettingEntry)
deriving DecidableEq, Repr

/-- The dispatch table of `MasterApplication.dispatch_command`: command verb
to FSM trigger; an unknown (or absent) verb raises `KeyError` on the dict
lookup. -/
def commandTrigger : Option String → Option Trigger
  | some "load" => some .load_command
  | some "next" => some .next
  | some "unload" => some .unload
  | some "reset" => some .reset
  | some "usersettings" => some .usersettings_command
  | some "getresults" => some .getresults
  | some "getlogs" => some .getlogs
  | some "getlogfile" => some .getlogfile
  | _ => none

/-- The `after` callback of each operator-command transition, run after the
state change.  External effects (timer arming, transport sends, job-file
parsing, STDF setup, settings persistence) are elided per the spec's
collaborator list; the callbacks below keep exactly the mutations of master
state and the exceptions the source can raise before them.  Job-data
retrieval in `on_loadcommand_issued` is an external collaborator and is
modelled as succeeding. -/
def commandAfter (t : Trigger) (msg : CommandMsg) (m1 : Master) :
    Master × Option MErr :=
  match t with
  | .load_command =>
    -- on_loadcommand_issued: `jobname = param_data['lot_number']` first
    match msg.lot_number with
    | none => (m1, some (.keyErr "lot_number"))
    | some lot =>
      -- optional `'|<variant>'` suffix: `jobname, thetestzipname = jobname.split('|')`
      let parts := lot.splitOn "|"
      if parts.length = 1 ∨ parts.length = 2 then
        ({ m1 with
            loaded_lot_number := parts.headD lot,
            pendingTransitionsControl :=
              SequenceContainer.init ["loading", "busy"] m1.configuredSites,
            ctrlCbs := .loadCbs,
            pendingTransitionsTest :=
              SequenceContainer.init ["idle"] m1.configuredSites,
            testCbs := .loadCbs,
            error_message := "",
            -- `_store_user_settings(UserSettings.get_defaults())`
            user_settings := UserSettings_get_defaults,
            are_usersettings_required := true }, none)
      else
        -- three or more '|'-separated parts: tuple unpacking raises
        (m1, some (.valueErr "too many values to unpack"))
  | .usersettings_command =>
    -- on_usersettings_command_issued: `settings = param_data['payload']`
    match msg.payload with
    | none => (m1, some (.keyErr "payload"))
    | some entries => (modify_user_settings m1 entries, none)
  | .next =>
    ({ m1 with
        pendingTransitionsTest :=
          SequenceContainer.init ["testing", "idle"] m1.configuredSites,
        testCbs := .nextCbs,
        error_message := "" }, none)
  | .unload =>
    ({ m1 with
        pendingTransitionsControl :=
          SequenceContainer.init ["idle"] m1.configuredSites,
        ctrlCbs := .unloadCbs,
        pendingTransitionsTest :=
          SequenceContainer.init ["terminated"] m1.configuredSites,
        testCbs := .unloadCbs,
        error_message := "" }, none)
  | .reset =>
    ({ m1 with
        pendingTransitionsControl :=
          SequenceContainer.init ["idle"] m1.configuredSites,
        ctrlCbs := .startupCbs,
        error_message := "" }, none)
  | .getresults => ({ m1 with are_testresults_required := true }, none)
  | .getlogs => ({ m1 with are_log_data_required := true }, none)
  | .getlogfile => ({ m1 with is_logfile_required := true }, none)
  | _ => (m1, none)

/-- `MasterApplication.dispatch_command`: look the verb up in the lambda
table and run it; *any* exception is caught and logged
(`except Exception as e`).  Returns the master object (with all mutations
performed before a raise kept) and whether an exception was caught. -/
def dispatch_command (m : Master) (msg : CommandMsg) : Master × Bool :=
  let o :=
    match commandTrigger msg.command with
    | none => MOut.raise m (.keyErr "command")
    | some t => fireWith m t (commandAfter t msg)
  match o.err with
  | some _ => (o.master, true)
  | none => (o.master, false)

/-- A concrete two-site master as produced by `MasterApplication.__init__` /
`init` (state `startup`, both control states `unknown`, fresh sub-FSMs,
startup control tracker), used by the closed theorems below. -/
def baseMaster : Master where
  state := .startup
  prev_state := none
  configuredSites := ["s1", "s2"]
  siteStates := [("s1", "unknown"), ("s2", "unknown")]
  sites := [("s1", .init "s1"), ("s2", .init "s2")]
  error_message := ""
  pendingTransitionsControl := SequenceContainer.init ["idle"] ["s1", "s2"]
  ctrlCbs := .startupCbs
  pendingTransitionsTest := SequenceContainer.init ["idle"] ["s1", "s2"]
  testCbs := .initCbs
  user_settings := UserSettings_get_defaults
  loaded_lot_number := ""
  are_usersettings_required := true
  are_testresults_required := false
  are_log_data_required := false
  is_logfile_required := false
  is_status_reporting_required := true

/-- A single-site master inside a `next` cycle, in `testing.inprogress`, with
`testing_inprogress` as the last published internal state. -/
def mTestingOneSite : Master :=
  { baseMaster with
      state := .testing_inprogress,
      prev_state := some .testing_inprogress,
      configuredSites := ["s1"],
      siteStates := [("s1", "busy")],
      sites := [("s1", TestingSiteModel.init "s1")] }

/-- A two-site master inside a `next` cycle where `s1` already requested
resource `⟨"R", 1⟩` and `s2` is still testing. -/
def mMismatch : Master :=
  { baseMaster with
      state := .testing_inprogress,
      prev_state := some .testing_inprogress,
      siteStates := [("s1", "busy"), ("s2", "busy")],
      sites :=
        [("s1", ⟨"s1", .waiting_for_resource, some ⟨"R", 1⟩, none⟩),
         ("s2", TestingSiteModel.init "s2")] }

/-- A two-site master in `testing.inprogress` where both sites are
`completed`. -/
def mAllCompleted : Master :=
  { baseMaster with
      state := .testing_inprogress,
      prev_state := some .testing_inprogress,
      sites :=
        [("s1", ⟨"s1", .completed, none, some 3⟩),
         ("s2", ⟨"s2", .completed, none, some 4⟩)] }

/-- A two-site master in `testing.waiting_for_resource` where `s1` waits for
resource `⟨"R", 1⟩` and `s2` already reported idle. -/
def mQuorum : Master :=
  { baseMaster with
      state := .testing_waiting_for_resource,
      prev_state := some .testing_waiting_for_resource,
      sites :=
        [("s1", ⟨"s1", .waiting_for_resource, some ⟨"R", 1⟩, none⟩),
         ("s2", ⟨"s2", .waiting_for_testresult, none, none⟩)] }

/-- A two-site master in `testing.inprogress` in which a quorum has just
formed: `s1` waits for resource `⟨"R", 1⟩` and `s2` has reported its
testresult and waits for idle. -/
def mQuorumStep : Master :=
  { baseMaster with
      state := .testing_inprogress,
      prev_state := some .testing_inprogress,
      sites :=
        [("s1", ⟨"s1", .waiting_for_resource, some ⟨"R", 1⟩, none⟩),
         ("s2", ⟨"s2", .waiting_for_idle, none, some 9⟩)] }

/-- `mQuorumStep` after `status_idle(s2)`: `s2` completed, the Multi-Site
FSM moved to `waiting_for_resource` (publishing `'testing'` again) and the
resource configuration was applied once. -/
def mQuorumStepAfter : Master :=
  { mQuorumStep with
      state := .testing_waiting_for_resource,
      prev_state := some .testing_waiting_for_resource,
      sites :=
        [("s1", ⟨"s1", .waiting_for_resource, some ⟨"R", 1⟩, none⟩),
         ("s2", ⟨"s2", .completed, none, some 9⟩)] }

/-- `baseMaster` after startup, sitting in `initialized`. -/
def mInitialized : Master :=
  { baseMaster with
      state := .initialized,
      prev_state := some .initialized,
      siteStates := [("s1", "idle"), ("s2", "idle")],
      ctrlCbs := .syncedCbs }

/-- `baseMaster` still in `connecting`. -/
def mConnecting : Master :=
  { baseMaster with state := .connecting, prev_state := some .connecting }

lemma charge_siteStep (s s' : TestingSiteModel) (e : SiteEvent)
    (h : siteStep s e = .ok s') :
    charge s'.state = charge s.state + eventCharge e := by
  cases e <;> cases hs : s.state <;>
    simp_all [siteStep, TestingSiteModel.resource_requested,
      TestingSiteModel.resource_ready, TestingSiteModel.testresult_received,
      TestingSiteModel.status_idle, charge, eventCharge] <;>
    (try cases h) <;> simp [charge, hs]

lemma charge_siteRun (es : List SiteEvent) :
    ∀ (s s' : TestingSiteModel), siteRun s es = .ok s' →
    charge s'.state = charge s.state + (countTestresults es, countIdles es) := by
  induction es with
  | nil =>
    intro s s' h
    simp [siteRun] at h
    simp [← h, countTestresults, countIdles]
  | cons e es ih =>
    intro s s' h
    simp only [siteRun] at h
    cases hstep : siteStep s e with
    | error er => simp [hstep] at h
    | ok s1 =>
      rw [hstep] at h
      have h1 := charge_siteStep s s1 e hstep
      have h2 := ih s1 s' h
      rw [h2, h1]
      cases e <;>
        simp [countTestresults, countIdles, eventCharge, Prod.ext_iff] <;> omega

lemma charge_completed_iff (st : SiteState) :
    charge st = (1, 1) ↔ st = .completed := by
  cases st <;> simp [charge]

lemma lookupAssoc_assocSet_self {α : Type} (l : List (String × α)) (k : String)
    (v : α) : lookupAssoc (assocSet l k v) k = some v := by
  induction l with
  | nil => simp [assocSet, lookupAssoc]
  | cons p rest ih =>
    by_cases h : p.1 = k <;> simp [assocSet, lookupAssoc, h]
    · simpa [lookupAssoc] using ih

lemma lookupAssoc_assocSet_ne {α : Type} (l : List (String × α)) (k k' : String)
    (v : α) (h : k' ≠ k) :
    lookupAssoc (assocSet l k v) k' = lookupAssoc l k' := by
  have h' : k ≠ k' := Ne.symm h
  induction l with
  | nil => simp [assocSet, lookupAssoc, List.find?, h']
  | cons p rest ih =>
    by_cases hp : p.1 = k
    · by_cases hp' : p.1 = k' <;>
        simp_all [assocSet, lookupAssoc, List.find?]
    · by_cases hp' : p.1 = k' <;>
        simp_all [assocSet, lookupAssoc, List.find?]

lemma publish_state_stable (m : Master) :
    (publish_state m).1.state = m.state ∧
    (publish_state m).1.sites = m.sites ∧
    (publish_state m).1.error_message = m.error_message ∧
    (publish_state m).1.siteStates = m.siteStates := by
  unfold publish_state
  split <;> simp

/-- **C3**: a per-site testing sub-FSM started in `inprogress` reaches
`completed` exactly when it has absorbed exactly one `testresult_received`
and exactly one `status_idle` event, and it does so for both interleavings
(testresult first, via `waiting_for_idle`; idle first, via
`waiting_for_testresult`), with resource negotiation allowed to interleave
before either. -/
theorem C3_site_completed_iff_one_result_one_idle :
    (∀ (sid : String) (es : List SiteEvent) (s' : TestingSiteModel),
        siteRun (TestingSiteModel.init sid) es = .ok s' →
        (s'.state = .completed ↔ countTestresults es = 1 ∧ countIdles es = 1))
    ∧ (∀ (sid : String) (req : ResourceRequest) (tr : Int),
        siteRun (TestingSiteModel.init sid)
            [.resource_requested req, .testresult_received tr, .status_idle] =
          .ok ⟨sid, .completed, some req, some tr⟩
        ∧ siteRun (TestingSiteModel.init sid)
            [.resource_requested req, .resource_ready, .status_idle,
              .testresult_received tr] =
          .ok ⟨sid, .completed, none, some tr⟩) := by
  constructor
  · intro sid es s' h
    have hc := charge_siteRun es _ _ h
    have h0 : charge (TestingSiteModel.init sid).state = (0, 0) := rfl
    rw [h0] at hc
    have hsum : charge s'.state = (countTestresults es, countIdles es) := by
      rw [hc]; ext <;> simp
    rw [← charge_completed_iff, hsum]
    simp [Prod.ext_iff]
  · intro sid req tr
    constructor <;>
      simp [siteRun, siteStep, TestingSiteModel.init,
        TestingSiteModel.resource_requested, TestingSiteModel.resource_ready,
        TestingSiteModel.testresult_received, TestingSiteModel.status_idle]

/-- Witness for C3 at a concrete event list. -/
theorem C3_site_completed_iff_one_result_one_idle_witness :
    countTestresults [SiteEvent.status_idle, SiteEvent.testresult_received 7] = 1 ∧
    countIdles [SiteEvent.status_idle, SiteEvent.testresult_received 7] = 1 := by
  have h := C3_site_completed_iff_one_result_one_idle.1 "s1"
    [SiteEvent.status_idle, SiteEvent.testresult_received 7]
    ⟨"s1", SiteState.completed, none, some 7⟩ rfl
  exact h.mp rfl

/-- **C7**: a `done_cb` that fires after the Multi-Site FSM has already left
`waiting_for_resource` is ignored completely: the master object is unchanged
(no Multi-Site transition, no `resource_ready` pushed into any site) and
nothing is published, applied or raised. -/
theorem C7_late_resource_callback_ignored (m : Master)
    (h : m.state ≠ MState.testing_waiting_for_resource) :
    on_resource_config_applied m = MOut.done m := by
  unfold on_resource_config_applied is_waiting_for_resource
  simp [h]

/-- Witness for C7: the callback arriving in `ready` is a no-op. -/
theorem C7_late_resource_callback_ignored_witness :
    on_resource_config_applied { baseMaster with state := MState.ready } =
      MOut.done { baseMaster with state := MState.ready } :=
  C7_late_resource_callback_ignored _ (by decide)

/-- **C5 counterexample**: the claim says a transition between two `testing`
substates publishes nothing (publication only when the externally-visible
name changes).  But `publish_state` deduplicates on the *internal* state
name: from `testing_inprogress` (already published), a resource request that
moves the Multi-Site FSM to `testing_waiting_for_resource` publishes
`'testing'` a second time although `external_state` did not change. -/
theorem C5_counterexample :
    external_state mTestingOneSite = "testing" ∧
    MState.isTesting mTestingOneSite.state = true ∧
    (mstep mTestingOneSite (.resourceRequest "s1" ⟨"R", 1⟩)).master.state =
      MState.testing_waiting_for_resource ∧
    MState.isTesting
      (mstep mTestingOneSite (.resourceRequest "s1" ⟨"R", 1⟩)).master.state = true ∧
    (mstep mTestingOneSite (.resourceRequest "s1" ⟨"R", 1⟩)).published =
      ["testing"] := by
  refine ⟨rfl, rfl, rfl, rfl, rfl⟩

/-- **C5 amended**: on every transition `publish_state` runs once and
publishes at most one state; it publishes exactly when the *internal* state
name changed relative to the previously published one (so a transition
between two distinct `testing` substates re-publishes the collapsed name),
and what it publishes is the external state, which collapses all three
`testing.*` substates to `'testing'`. -/
theorem C5_publish_dedup_on_internal_state (m m' : Master) (pub : List String)
    (h : publish_state m = (m', pub)) :
    pub.length ≤ 1 ∧
    (pub = [] ↔ m.prev_state = some m.state) ∧
    (m.prev_state ≠ some m.state →
      pub = [external_state m] ∧ m'.prev_state = some m.state) ∧
    (MState.isTesting m.state = true → external_state m = "testing") := by
  unfold publish_state at h
  have hext : MState.isTesting m.state = true → external_state m = "testing" := by
    intro ht
    simp [external_state, ht]
  by_cases hc : m.prev_state = some m.state
  · rw [if_pos hc] at h
    cases h
    exact ⟨by simp, by simp [hc], fun hn => absurd hc hn, hext⟩
  · rw [if_neg hc] at h
    cases h
    exact ⟨by simp, by simp [hc], fun _ => ⟨rfl, rfl⟩, hext⟩

/-- Witness for C5 amended: entering `ready` from `testing_completed`
publishes exactly `['ready']`. -/
theorem C5_publish_dedup_on_internal_state_witness :
    (publish_state { baseMaster with
        state := MState.ready, prev_state := some MState.testing_completed }).2 =
      ["ready"] ∧
    (publish_state { baseMaster with
        state := MState.ready,
        prev_state := some MState.testing_completed }).1.prev_state =
      some MState.ready := by
  have h := C5_publish_dedup_on_internal_state
    { baseMaster with
        state := MState.ready, prev_state := some MState.testing_completed }
    (publish_state { baseMaster with
        state := MState.ready, prev_state := some MState.testing_completed }).1
    (publish_state { baseMaster with
        state := MState.ready, prev_state := some MState.testing_completed }).2
    rfl
  obtain ⟨hp, he⟩ := h.2.2.1 (by decide)
  exact ⟨hp, he⟩

lemma andThen_master_none (o : MOut) (f : Master → MOut) (h : o.err = none) :
    (o.andThen f).master = (f o.master).master ∧
    (o.andThen f).err = (f o.master).err := by
  unfold MOut.andThen
  rw [h]
  exact ⟨rfl, rfl⟩

lemma fire_ok_fields (m : Master) (t : Trigger) (d : MState)
    (h : validDest m.state t = some d) :
    (fire m t).err = none ∧ (fire m t).master.state = d ∧
    (fire m t).master.sites = m.sites ∧
    (fire m t).master.siteStates = m.siteStates ∧
    (fire m t).master.ctrlCbs = m.ctrlCbs ∧
    (fire m t).master.error_message = m.error_message ∧
    (fire m t).master.configuredSites = m.configuredSites ∧
    (fire m t).applies = [] ∧ (fire m t).completes = 0 := by
  unfold fire fireWith
  rw [h]
  simp only []
  unfold publish_state
  split <;> simp

lemma fire_on_error_spec (m : Master) (msg : String) :
    (fire_on_error m msg).err = none ∧
    (fire_on_error m msg).master.state = MState.softerror ∧
    (fire_on_error m msg).master.error_message = msg ∧
    (fire_on_error m msg).master.siteStates = m.siteStates := by
  unfold fire_on_error fireWith
  have h : validDest m.state .on_error = some .softerror := rfl
  rw [h]
  simp only []
  unfold publish_state
  split <;> simp

/-- Once the master object sits in `error` with the startup control tracker,
the `try` block of `on_control_status_changed` cannot move it away from
`error` for a configured site (completion of the tracker would fire
`all_sites_detected`, which `error` rejects with a `MachineError`; an
off-sequence report only records a message). -/
lemma control_status_try_keeps_error (m1 : Master) (siteid ns : String)
    (hst : m1.state = MState.error) (hcb : m1.ctrlCbs = CtrlCbs.startupCbs)
    (cur : String) (hcur : lookupAssoc m1.siteStates siteid = some cur) :
    (control_status_try m1 siteid ns).master.state = MState.error := by
  unfold control_status_try
  simp only [hcur]
  by_cases hch : cur ≠ ns
  · rw [if_pos hch]
    split
    · unfold ctrl_on_complete fireWith
      simp only [hcb]
      simp [validDest, hst, MOut.raise]
    · unfold ctrl_on_unexpected
      simp only [hcb]
      simp [MOut.done, hst]
    · simp [MOut.done, hst]
  · rw [if_neg hch]
    simp [MOut.done, hst]

/-- **C6 counterexample**: the claim says a bad interface version drives the
Master to `error` regardless of its current state.  But the
`bad_interface_version` transition is declared with source `connecting`
only: from `initialized`, the trigger raises an unhandled `MachineError` and
the state does not change. -/
theorem C6_counterexample :
    (on_control_status_changed mInitialized "s1" ⟨2, "idle"⟩).master.state =
      MState.initialized ∧
    (on_control_status_changed mInitialized "s1" ⟨2, "idle"⟩).err =
      some (.machineErr "bad_interface_version") := by
  refine ⟨rfl, rfl⟩

/-- **C6 amended**: while the Master is in `connecting` (where the control
tracker is the startup one), the first control-status report from a
configured site carrying an `interface_version ≠ 1` fires
`bad_interface_version` and leaves the Master in the terminal state `error`;
in any other top-level state the trigger raises an unhandled `MachineError`
and no transition to `error` occurs. -/
theorem C6_bad_interface_version_in_connecting (m : Master) (siteid : String)
    (msg : ControlStatusMsg) (hs : m.state = MState.connecting)
    (hv : msg.interface_version ≠ INTERFACE_VERSION)
    (hcfg : (lookupAssoc m.siteStates siteid).isSome = true)
    (hcbs : m.ctrlCbs = CtrlCbs.startupCbs) :
    (on_control_status_changed m siteid msg).master.state = MState.error := by
  obtain ⟨cur, hcur⟩ := Option.isSome_iff_exists.mp hcfg
  unfold on_control_status_changed
  rw [if_pos hv]
  have hd : validDest m.state .bad_interface_version = some .error := by
    rw [hs]
    rfl
  obtain ⟨herr, hst, -, hss, hcb, -, -, -, -⟩ :=
    fire_ok_fields m .bad_interface_version .error hd
  show ((fire m .bad_interface_version).andThen
      fun m1 => control_status_try m1 siteid msg.state).master.state = MState.error
  rw [(andThen_master_none _ (fun m1 => control_status_try m1 siteid msg.state)
    herr).1]
  exact control_status_try_keeps_error _ siteid msg.state hst
    (hcb.trans hcbs) cur (by rw [hss]; exact hcur)

/-- Witness for C6 amended: a version-2 report from configured site `s1`
during `connecting` ends in `error`. -/
theorem C6_bad_interface_version_in_connecting_witness :
    (on_control_status_changed mConnecting "s1" ⟨2, "idle"⟩).master.state =
      MState.error :=
  C6_bad_interface_version_in_connecting mConnecting "s1" ⟨2, "idle"⟩
    rfl (by decide) (by decide) rfl

/-- **C10**: a control-status report (with the correct interface version)
whose `site_id` is not configured raises `KeyError` on the `siteStates`
lookup, which `on_control_status_changed` catches: it invokes `on_error`
with a message naming the unconfigured site, the Master transitions to
`softerror`, no exception propagates, and the per-site status map gains no
entry. -/
theorem C10_unconfigured_site_softerror (m : Master) (siteid : String)
    (msg : ControlStatusMsg)
    (hv : msg.interface_version = INTERFACE_VERSION)
    (hns : lookupAssoc m.siteStates siteid = none) :
    (on_control_status_changed m siteid msg).err = none ∧
    (on_control_status_changed m siteid msg).master.state = MState.softerror ∧
    (on_control_status_changed m siteid msg).master.error_message =
      s!"Site id received: {siteid} is not configured" ∧
    (on_control_status_changed m siteid msg).master.siteStates =
      m.siteStates := by
  unfold on_control_status_changed
  rw [if_neg (by simp [hv])]
  show ((MOut.done m).andThen fun m1 => control_status_try m1 siteid msg.state).err = none ∧ _
  have hdone : (MOut.done m).err = none := rfl
  have hand := andThen_master_none (MOut.done m)
    (fun m1 => control_status_try m1 siteid msg.state) hdone
  have htry : control_status_try m siteid msg.state =
      fire_on_error m s!"Site id received: {siteid} is not configured" := by
    unfold control_status_try
    rw [hns]
  have hsp := fire_on_error_spec m s!"Site id received: {siteid} is not configured"
  refine ⟨?_, ?_, ?_, ?_⟩
  · rw [hand.2]
    simp only [MOut.done]
    rw [htry]
    exact hsp.1
  · rw [hand.1]
    simp only [MOut.done]
    rw [htry]
    exact hsp.2.1
  · rw [hand.1]
    simp only [MOut.done]
    rw [htry]
    exact hsp.2.2.1
  · rw [hand.1]
    simp only [MOut.done]
    rw [htry]
    exact hsp.2.2.2

/-- Witness for C10: a well-versioned report from unconfigured site `s9`. -/
theorem C10_unconfigured_site_softerror_witness :
    (on_control_status_changed baseMaster "s9" ⟨1, "idle"⟩).master.state =
      MState.softerror ∧
    (on_control_status_changed baseMaster "s9" ⟨1, "idle"⟩).master.siteStates =
      baseMaster.siteStates :=
  ⟨(C10_unconfigured_site_softerror baseMaster "s9" ⟨1, "idle"⟩ rfl
      (by decide)).2.1,
   (C10_unconfigured_site_softerror baseMaster "s9" ⟨1, "idle"⟩ rfl
      (by decide)).2.2.2⟩

lemma extract_settings_cons (d : List (String × SettingValue))
    (s : SettingEntry) (rest : List SettingEntry) :
    extract_settings d (s :: rest) =
      extract_settings (assocSet d s.name ⟨s.active, coerce_setting_value s.value⟩)
        rest := rfl

lemma extract_settings_not_mem (settings : List SettingEntry) :
    ∀ (d : List (String × SettingValue)) (n : String),
    n ∉ settings.map (·.name) →
    lookupAssoc (extract_settings d settings) n = lookupAssoc d n := by
  induction settings with
  | nil =>
    intro d n _
    rfl
  | cons s rest ih =>
    intro d n h
    rw [List.map_cons, List.mem_cons] at h
    push_neg at h
    rw [extract_settings_cons, ih _ n h.2]
    exact lookupAssoc_assocSet_ne d s.name n _ h.1

lemma extract_settings_mem (settings : List SettingEntry) :
    ∀ (d : List (String × SettingValue)),
    (settings.map (·.name)).Nodup →
    ∀ e ∈ settings,
      lookupAssoc (extract_settings d settings) e.name =
        some ⟨e.active, coerce_setting_value e.value⟩ := by
  induction settings with
  | nil =>
    intro d _ e he
    exact absurd he (List.not_mem_nil e)
  | cons s rest ih =>
    intro d hnd e he
    rw [List.map_cons, List.nodup_cons] at hnd
    rcases List.mem_cons.mp he with rfl | hr
    · rw [extract_settings_cons, extract_settings_not_mem rest _ e.name hnd.1]
      exact lookupAssoc_assocSet_self d e.name _
    · rw [extract_settings_cons]
      exact ih _ hnd.2 e hr

/-- **C8 counterexample**: the claim says an entry with a *present* value
keeps its integer value.  But `_extract_settings` uses
`int(setting['value']) if setting.get('value') else -1`, and Python
truthiness makes the present integer value `0` falsy: it is stored as `-1`,
not `0`. -/
theorem C8_counterexample :
    lookupAssoc
        (extract_settings UserSettings_get_defaults
          [⟨"stop_on_fail", true, some 0⟩]) "stop_on_fail" =
      some ⟨true, -1⟩ ∧
    coerce_setting_value (some 0) ≠ (0 : Int) := by
  refine ⟨rfl, by decide⟩

/-- **C8 amended**: each payload entry is merged over the defaults with its
value coerced to integer; an entry whose `value` is absent *or falsy (the
integer 0)* is stored with value `-1`, while a present non-zero value keeps
its integer value; names not mentioned in the payload keep their default. -/
theorem C8_settings_value_coercion (defaults : List (String × SettingValue))
    (settings : List SettingEntry)
    (hnd : (settings.map (·.name)).Nodup) :
    (∀ e ∈ settings,
        lookupAssoc (extract_settings defaults settings) e.name =
          some ⟨e.active, coerce_setting_value e.value⟩) ∧
    (∀ n, n ∉ settings.map (·.name) →
        lookupAssoc (extract_settings defaults settings) n =
          lookupAssoc defaults n) := by
  exact ⟨extract_settings_mem settings defaults hnd,
    extract_settings_not_mem settings defaults⟩

/-- Witness for C8 amended: a present non-zero value is kept, an absent one
becomes `-1`, and an unmentioned name keeps its default. -/
theorem C8_settings_value_coercion_witness :
    lookupAssoc
        (extract_settings UserSettings_get_defaults
          [⟨"stop_on_fail", true, some 5⟩, ⟨"single_step", true, none⟩])
        "stop_on_fail" = some ⟨true, 5⟩ ∧
    lookupAssoc
        (extract_settings UserSettings_get_defaults
          [⟨"stop_on_fail", true, some 5⟩, ⟨"single_step", true, none⟩])
        "single_step" = some ⟨true, -1⟩ := by
  have h := C8_settings_value_coercion UserSettings_get_defaults
    [⟨"stop_on_fail", true, some 5⟩, ⟨"single_step", true, none⟩] (by decide)
  exact ⟨h.1 ⟨"stop_on_fail", true, some 5⟩ (by decide),
    h.1 ⟨"single_step", true, none⟩ (by decide)⟩

lemma commandAfter_state (t : Trigger) (msg : CommandMsg) (m1 : Master) :
    (commandAfter t msg m1).1.state = m1.state := by
  cases t <;>
    simp only [commandAfter, modify_user_settings] <;>
    try rfl
  · cases msg.lot_number with
    | none => rfl
    | some lot => by_cases h : (lot.splitOn "|").length = 1 ∨ (lot.splitOn "|").length = 2 <;> simp [h]
  · cases msg.payload with
    | none => rfl
    | some entries => rfl

lemma fireWith_valid_state (m : Master) (t : Trigger) (d : MState)
    (after : Master → Master × Option MErr)
    (h : validDest m.state t = some d)
    (hpres : ∀ m2, (after m2).1.state = m2.state) :
    (fireWith m t after).master.state = d := by
  unfold fireWith
  rw [h]
  rcases haf : after { m with state := d } with ⟨m2, e⟩
  have hm2 : m2.state = d := by
    have := hpres { m with state := d }
    rw [haf] at this
    exact this
  cases e with
  | some er =>
    simp [haf, MOut.raise, hm2]
  | none =>
    simp only [haf]
    have := publish_state_stable m2
    simp [this.1, hm2]

/-- **C9 counterexample**: the claim says that on a dispatch exception the
Master remains in the state it was in before the command.  But the
`transitions` library changes the state *before* running the transition's
`after` callback: a `load` command without a `lot_number` raises `KeyError`
inside `on_loadcommand_issued`, the exception is caught and logged by
`dispatch_command` — yet the Master is left in `loading`, not
`initialized`. -/
theorem C9_counterexample :
    (dispatch_command mInitialized ⟨some "load", none, none⟩).2 = true ∧
    (dispatch_command mInitialized ⟨some "load", none, none⟩).1.state =
      MState.loading ∧
    mInitialized.state = MState.initialized := by
  refine ⟨rfl, rfl, rfl⟩

/-- **C9 amended**: every exception raised while dispatching an operator
command is caught and logged, never propagated (`dispatch_command` is a
total function).  The Master remains in its pre-dispatch state whenever the
exception precedes the state change — an unknown command verb (`KeyError`
on the lambda table) or a trigger invalid in the current state
(`MachineError`) — while a successfully taken transition leaves the Master
in the transition's destination state even when its `after` callback
raises. -/
theorem C9_dispatch_exceptions_caught (m : Master) (msg : CommandMsg) :
    (commandTrigger msg.command = none →
      dispatch_command m msg = (m, true)) ∧
    (∀ t, commandTrigger msg.command = some t →
      validDest m.state t = none → dispatch_command m msg = (m, true)) ∧
    (∀ t d, commandTrigger msg.command = some t →
      validDest m.state t = some d →
      (dispatch_command m msg).1.state = d) := by
  refine ⟨?_, ?_, ?_⟩
  · intro h
    unfold dispatch_command
    rw [h]
    rfl
  · intro t ht hd
    unfold dispatch_command
    rw [ht]
    simp only []
    unfold fireWith
    rw [hd]
    rfl
  · intro t d ht hd
    unfold dispatch_command
    rw [ht]
    have hstate := fireWith_valid_state m t d (commandAfter t msg) hd
      (commandAfter_state t msg)
    rcases herr : (fireWith m t (commandAfter t msg)).err with _ | er <;>
      simp [herr, hstate]

/-- Witness for C9 amended: a `next` command in `initialized` (invalid
trigger) is swallowed and leaves the master untouched, and a `load` command
in `initialized` lands in `loading`. -/
theorem C9_dispatch_exceptions_caught_witness :
    dispatch_command mInitialized ⟨some "next", none, none⟩ =
      (mInitialized, true) ∧
    (dispatch_command mInitialized ⟨some "load", some "lotA", none⟩).1.state =
      MState.loading :=
  ⟨(C9_dispatch_exceptions_caught mInitialized
      ⟨some "next", none, none⟩).2.1 .next rfl rfl,
   (C9_dispatch_exceptions_caught mInitialized
      ⟨some "load", some "lotA", none⟩).2.2 .load_command .loading rfl rfl⟩

lemma getSite_mem (m : Master) (sid : String) (s : TestingSiteModel)
    (h : getSite m sid = .ok s) : (sid, s) ∈ m.sites := by
  unfold getSite at h
  rcases hf : m.sites.find? (fun p => p.1 = sid) with _ | p
  · rw [hf] at h
    cases h
  · rw [hf] at h
    cases h
    have hp := List.find?_some hf
    have hm := List.mem_of_find?_eq_some hf
    simp only [decide_eq_true_eq] at hp
    rw [← hp]
    exact hm

lemma setSite_sites (m : Master) (sid : String) (s : TestingSiteModel) :
    (setSite m sid s).sites =
      m.sites.map (fun p => if p.1 = sid then (sid, s) else p) := rfl

/-- **C2**: when a site in `inprogress` raises a resource request `req` while
some *other* site has a structurally different request stored,
`handle_resource_request` raises the `RuntimeError` naming the requester and
an offending site whose stored request differs, and no
`apply_resource_config` happens in that cycle step. -/
theorem C2_resource_mismatch_protocol_error (m : Master) (sid : String)
    (req : ResourceRequest) (site : TestingSiteModel)
    (p : String × TestingSiteModel) (r' : ResourceRequest)
    (hget : getSite m sid = .ok site) (hst : site.state = .inprogress)
    (hp : p ∈ m.sites) (hpne : p.1 ≠ sid)
    (hpr : p.2.resource_request = some r') (hne : r' ≠ req) :
    ∃ off,
      (handle_resource_request m sid req).err =
        some (MErr.mismatchErr sid off) ∧
      (handle_resource_request m sid req).applies = [] ∧
      off ≠ sid ∧
      ∃ q ∈ m.sites, q.1 = off ∧
        ∃ r'', q.2.resource_request = some r'' ∧ r'' ≠ req := by
  have hreq : site.resource_requested req =
      .ok { site with state := .waiting_for_resource,
                      resource_request := some req } := by
    unfold TestingSiteModel.resource_requested
    rw [hst]
  unfold handle_resource_request
  simp only [hget, hreq]
  set site' : TestingSiteModel :=
    { site with state := .waiting_for_resource,
                resource_request := some req } with hsite'
  have hpm1 : p ∈ (setSite m sid site').sites := by
    rw [setSite_sites]
    exact List.mem_map.mpr ⟨p, hp, by rw [if_neg hpne]⟩
  have hppred : mismatchPred req p = true := by
    unfold mismatchPred
    simp only [hpr]
    simpa using hne
  have hsome : ((setSite m sid site').sites.find? (mismatchPred req)).isSome :=
    List.find?_isSome.mpr ⟨p, hpm1, hppred⟩
  obtain ⟨q, hq⟩ := Option.isSome_iff_exists.mp hsome
  have hqpred := List.find?_some hq
  have hqmem := List.mem_of_find?_eq_some hq
  rw [setSite_sites] at hqmem
  obtain ⟨q0, hq0mem, hq0eq⟩ := List.mem_map.mp hqmem
  simp only [hq]
  by_cases hq0 : q0.1 = sid
  · rw [if_pos hq0] at hq0eq
    rw [← hq0eq] at hqpred
    simp [mismatchPred] at hqpred
  · rw [if_neg hq0] at hq0eq
    rw [hq0eq] at hq0mem hq0
    unfold mismatchPred at hqpred
    rcases hqr : q.2.resource_request with _ | r''
    · simp [hqr] at hqpred
    · simp only [hqr, decide_eq_true_eq] at hqpred
      exact ⟨q.1, rfl, rfl, hq0, q, hq0mem, rfl, r'', hqr, hqpred⟩

/-- Witness for C2: `s2` requests `⟨"R", 2⟩` while `s1` already stored
`⟨"R", 1⟩`. -/
theorem C2_resource_mismatch_protocol_error_witness :
    ∃ off,
      (handle_resource_request mMismatch "s2" ⟨"R", 2⟩).err =
        some (MErr.mismatchErr "s2" off) ∧
      (handle_resource_request mMismatch "s2" ⟨"R", 2⟩).applies = [] ∧
      off ≠ "s2" ∧
      ∃ q ∈ mMismatch.sites, q.1 = off ∧
        ∃ r'', q.2.resource_request = some r'' ∧ r'' ≠ ⟨"R", 2⟩ :=
  C2_resource_mismatch_protocol_error mMismatch "s2" ⟨"R", 2⟩
    (TestingSiteModel.init "s2")
    ("s1", ⟨"s1", .waiting_for_resource, some ⟨"R", 1⟩, none⟩) ⟨"R", 1⟩
    rfl rfl (by decide) (by decide) rfl (by decide)

lemma andThen_fields (o : MOut) (f : Master → MOut) (h : o.err = none) :
    o.andThen f =
      ⟨(f o.master).master, o.published ++ (f o.master).published,
        o.applies ++ (f o.master).applies,
        o.completes + (f o.master).completes, (f o.master).err⟩ := by
  unfold MOut.andThen
  rw [h]

lemma fireWith_no_outputs (m : Master) (t : Trigger)
    (after : Master → Master × Option MErr) :
    (fireWith m t after).applies = [] ∧ (fireWith m t after).completes = 0 ∧
    (fireWith m t after).published.length ≤ 1 := by
  unfold fireWith
  rcases validDest m.state t with _ | d
  · exact ⟨rfl, rfl, by simp [MOut.raise]⟩
  · simp only []
    rcases after { m with state := d } with ⟨m2, e⟩
    cases e
    · simp only []
      unfold publish_state
      split <;> simp
    · exact ⟨rfl, rfl, by simp [MOut.raise]⟩

lemma fireWith_ok_after_none (m : Master) (t : Trigger) (d : MState)
    (after : Master → Master × Option MErr)
    (hd : validDest m.state t = some d)
    (hnone : ∀ m2, (after m2).2 = none) :
    (fireWith m t after).err = none ∧
    (fireWith m t after).master =
      (publish_state (after { m with state := d }).1).1 := by
  unfold fireWith
  rw [hd]
  rcases haf : after { m with state := d } with ⟨m2, e⟩
  have he := hnone { m with state := d }
  rw [haf] at he
  cases he
  simp [haf]

lemma handle_reset_state (m : Master) : (handle_reset m).state = m.state := rfl

lemma handle_reset_all_inprogress (m : Master)
    (h : m.sites.all (fun p => p.2.state = .completed) = true) :
    (handle_reset m).sites.all (fun p => p.2.state = .inprogress) = true := by
  unfold handle_reset
  rw [List.all_eq_true] at h ⊢
  intro x hx
  simp only [List.mem_map] at hx
  obtain ⟨y, hy, hyx⟩ := hx
  have := h y hy
  simp only [decide_eq_true_eq] at this
  rw [if_pos (by simp [this])] at hyx
  rw [← hyx]
  simp

/-- **C4**: the Multi-Site Testing FSM transitions to `completed`
(`_check_for_all_sites_completed` takes the completion branch) exactly when
every per-site sub-FSM is `completed`; and when that happens inside the
`testing` state, the coordinator is notified exactly once via
`all_sitetests_complete`, the top level transitions to `ready`, and every
per-site sub-FSM is reset back to `inprogress`. -/
theorem C4_multisite_completion :
    (∀ m : Master, (check_all_completed m).2 = true ↔
        m.sites.all (fun p => p.2.state = .completed) = true) ∧
    (∀ m : Master, MState.isTesting m.state = true →
        m.sites.all (fun p => p.2.state = .completed) = true →
        (check_all_completed m).1.err = none ∧
        (check_all_completed m).1.completes = 1 ∧
        (check_all_completed m).1.master.state = MState.ready ∧
        (check_all_completed m).1.master.sites.all
          (fun p => p.2.state = .inprogress) = true) := by
  constructor
  · intro m
    unfold check_all_completed
    by_cases h : m.sites.all (fun p => p.2.state = .completed) = true <;>
      simp [h]
  · intro m hts hall
    unfold check_all_completed
    rw [if_pos hall]
    have hd1 : validDest m.state .all_sites_completed =
        some .testing_completed := by
      unfold validDest
      rw [hts]
      rfl
    obtain ⟨herr1, hst1, hsi1, -, -, -, -, -, -⟩ :=
      fire_ok_fields m .all_sites_completed .testing_completed hd1
    have hd2 : validDest (fire m .all_sites_completed).master.state
        .all_sitetests_complete = some .ready := by
      rw [hst1]
      rfl
    have hok2 := fireWith_ok_after_none (fire m .all_sites_completed).master
      .all_sitetests_complete .ready (fun m2 => (handle_reset m2, none)) hd2
      (fun _ => rfl)
    have hand := andThen_fields (fire m .all_sites_completed)
      (fun m1 => fireWith m1 .all_sitetests_complete
        (fun m2 => (handle_reset m2, none))) herr1
    rw [hand]
    simp only []
    have hno1 := fireWith_no_outputs m .all_sites_completed
      (fun m1 => (m1, none))
    have hno2 := fireWith_no_outputs (fire m .all_sites_completed).master
      .all_sitetests_complete (fun m2 => (handle_reset m2, none))
    refine ⟨hok2.1, ?_, ?_, ?_⟩
    · show (fire m .all_sites_completed).completes +
        (fireWith _ .all_sitetests_complete _).completes + 1 = 1
      rw [hno2.2.1]
      have : (fire m .all_sites_completed).completes = 0 := hno1.2.1
      rw [this]
    · rw [hok2.2]
      have hps := publish_state_stable
        ((handle_reset { (fire m .all_sites_completed).master with
          state := MState.ready }))
      rw [hps.1, handle_reset_state]
    · rw [hok2.2]
      have hps := publish_state_stable
        ((handle_reset { (fire m .all_sites_completed).master with
          state := MState.ready }))
      rw [hps.2.1]
      apply handle_reset_all_inprogress
      show ({ (fire m .all_sites_completed).master with
        state := MState.ready } : Master).sites.all _ = true
      rw [hsi1] at *
      exact hall

/-- Witness for C4: both sites completed in `testing.inprogress`. -/
theorem C4_multisite_completion_witness :
    (check_all_completed mAllCompleted).2 = true ∧
    (check_all_completed mAllCompleted).1.completes = 1 ∧
    (check_all_completed mAllCompleted).1.master.state = MState.ready ∧
    (check_all_completed mAllCompleted).1.master.sites.all
      (fun p => p.2.state = .inprogress) = true := by
  have h1 := (C4_multisite_completion.1 mAllCompleted).mpr (by decide)
  have h2 := C4_multisite_completion.2 mAllCompleted rfl (by decide)
  exact ⟨h1, h2.2.1, h2.2.2.1, h2.2.2.2⟩

lemma quorumSites_spec (l : List (String × TestingSiteModel)) :
    QuorumSites l = true ↔
      (∀ p ∈ l, p.2.state ≠ SiteState.inprogress) ∧
      (∃ p ∈ l, p.2.state = SiteState.waiting_for_resource) := by
  unfold QuorumSites
  simp [List.all_eq_true, List.any_eq_true]

lemma quorum_no_inprogress_member (l : List (String × TestingSiteModel))
    (p : String × TestingSiteModel) (hp : p ∈ l)
    (hs : p.2.state = SiteState.inprogress) (hq : QuorumSites l = true) :
    False :=
  (quorumSites_spec l).mp hq |>.1 p hp hs

lemma quorum_false_of_all_inprogress (l : List (String × TestingSiteModel))
    (h : l.all (fun p => p.2.state = .inprogress) = true)
    (hq : QuorumSites l = true) : False := by
  rcases l with _ | ⟨x, xs⟩
  · cases hq
  · refine quorum_no_inprogress_member _ x (by simp) ?_ hq
    have := List.all_eq_true.mp h x (by simp)
    simpa using this

lemma any_inprogress_false_of_quorum (l : List (String × TestingSiteModel))
    (hq : QuorumSites l = true) :
    (l.any fun p => p.2.state = .inprogress) = false := by
  rw [Bool.eq_false_iff]
  intro ha
  rw [List.any_eq_true] at ha
  obtain ⟨p, hp, hps⟩ := ha
  simp only [decide_eq_true_eq] at hps
  exact quorum_no_inprogress_member l p hp hps hq

lemma filter_waiting_ne_nil_of_quorum (l : List (String × TestingSiteModel))
    (hq : QuorumSites l = true) :
    l.filter (fun p => p.2.state = .waiting_for_resource) ≠ [] := by
  obtain ⟨p, hp, hw⟩ := (quorumSites_spec l).mp hq |>.2
  intro hnil
  have hmem : p ∈ l.filter (fun p => p.2.state = .waiting_for_resource) :=
    List.mem_filter.mpr ⟨hp, by simp [hw]⟩
  rw [hnil] at hmem
  cases hmem

lemma fire_master_sites (m : Master) (t : Trigger) :
    (fire m t).master.sites = m.sites := by
  unfold fire fireWith
  rcases validDest m.state t with _ | d
  · rfl
  · simp only []
    unfold publish_state
    split <;> rfl

lemma fire_applies_completes (m : Master) (t : Trigger) :
    (fire m t).applies = [] ∧ (fire m t).completes = 0 :=
  ⟨(fireWith_no_outputs m t _).1, (fireWith_no_outputs m t _).2.1⟩

lemma fire_err_none_iff (m : Master) (t : Trigger) :
    (fire m t).err = none ↔ (validDest m.state t).isSome = true := by
  unfold fire fireWith
  rcases validDest m.state t with _ | d
  · simp [MOut.raise]
  · simp

lemma andThen_err_some (o : MOut) (f : Master → MOut) (e : MErr)
    (h : o.err = some e) : o.andThen f = o := by
  unfold MOut.andThen
  rw [h]

/-- Full case analysis of `_check_for_all_remaing_sites_waiting_for_resource`:
either it does nothing, or the `all_sites_waiting_for_resource` trigger raises
(invalid outside `testing_inprogress`), or it fires and emits exactly one
`apply_resource_config`. -/
lemma crw_cases (m : Master) :
    check_remaining_waiting m = MOut.done m ∨
    ((check_remaining_waiting m).err ≠ none ∧
      (check_remaining_waiting m).applies = [] ∧
      (check_remaining_waiting m).master = m) ∨
    ((check_remaining_waiting m).applies ≠ [] ∧
      (check_remaining_waiting m).applies.length = 1 ∧
      m.state = MState.testing_inprogress ∧
      (check_remaining_waiting m).err = none ∧
      (check_remaining_waiting m).master.state =
        MState.testing_waiting_for_resource ∧
      (check_remaining_waiting m).master.sites = m.sites ∧
      (m.sites.any fun p => p.2.state = .inprogress) = false) := by
  unfold check_remaining_waiting
  by_cases h1 : is_waiting_for_resource m = true
  · rw [if_pos h1]
    left
    rfl
  · rw [if_neg h1]
    by_cases h2 : (m.sites.any fun p => p.2.state = .inprogress) = true
    · rw [if_pos h2]
      left
      rfl
    · rw [if_neg h2]
      rcases hfil : m.sites.filter (fun p => p.2.state = .waiting_for_resource)
        with _ | ⟨w, ws⟩
      · simp only [hfil]
        left
        trivial
      · simp only [hfil]
        rcases hvd : validDest m.state .all_sites_waiting_for_resource
          with _ | d
        · -- MachineError from the trigger
          right; left
          have hraise : fire m .all_sites_waiting_for_resource =
              MOut.raise m (.machineErr "all_sites_waiting_for_resource") := by
            unfold fire fireWith
            rw [hvd]
            rfl
          rw [hraise]
          simp [MOut.raise]
        · -- the trigger fires: the source must be `testing_inprogress`
          have hst : m.state = MState.testing_inprogress := by
            by_contra hne
            rw [show validDest m.state .all_sites_waiting_for_resource = none by
              unfold validDest
              rw [if_neg hne]] at hvd
            cases hvd
          have hd : d = MState.testing_waiting_for_resource := by
            rw [show validDest m.state .all_sites_waiting_for_resource =
              some MState.testing_waiting_for_resource by
              unfold validDest
              rw [if_pos hst]] at hvd
            cases hvd
            rfl
          subst hd
          obtain ⟨herr, hstate, hsites, -, -, -, -, hap, -⟩ :=
            fire_ok_fields m .all_sites_waiting_for_resource _ hvd
          right; right
          simp only [herr, hap, List.nil_append]
          exact ⟨by simp, by simp, hst, by trivial, hstate, hsites,
            Bool.eq_false_iff.mpr h2⟩

lemma cac_not_taken (m : Master)
    (h : ¬ (m.sites.all fun p => p.2.state = .completed) = true) :
    check_all_completed m = (MOut.done m, false) := by
  unfold check_all_completed
  rw [if_neg h]

lemma cac_taken_spec (m : Master) (hts : MState.isTesting m.state = true)
    (hall : (m.sites.all fun p => p.2.state = .completed) = true) :
    (check_all_completed m).1.err = none ∧
    (check_all_completed m).1.completes = 1 ∧
    (check_all_completed m).1.master.state = MState.ready ∧
    (check_all_completed m).1.master.sites.all
      (fun p => p.2.state = .inprogress) = true := by
  unfold check_all_completed
  rw [if_pos hall]
  have hd1 : validDest m.state .all_sites_completed =
      some .testing_completed := by
    unfold validDest
    rw [hts]
    rfl
  obtain ⟨herr1, hst1, hsi1, -, -, -, -, -, -⟩ :=
    fire_ok_fields m .all_sites_completed .testing_completed hd1
  have hd2 : validDest (fire m .all_sites_completed).master.state
      .all_sitetests_complete = some .ready := by
    rw [hst1]
    rfl
  have hok2 := fireWith_ok_after_none (fire m .all_sites_completed).master
    .all_sitetests_complete .ready (fun m2 => (handle_reset m2, none)) hd2
    (fun _ => rfl)
  have hand := andThen_fields (fire m .all_sites_completed)
    (fun m1 => fireWith m1 .all_sitetests_complete
      (fun m2 => (handle_reset m2, none))) herr1
  rw [hand]
  simp only []
  have hno1 := fireWith_no_outputs m .all_sites_completed
    (fun m1 => (m1, none))
  have hno2 := fireWith_no_outputs (fire m .all_sites_completed).master
    .all_sitetests_complete (fun m2 => (handle_reset m2, none))
  refine ⟨hok2.1, ?_, ?_, ?_⟩
  · show (fire m .all_sites_completed).completes +
      (fireWith _ .all_sitetests_complete _).completes + 1 = 1
    rw [hno2.2.1]
    have : (fire m .all_sites_completed).completes = 0 := hno1.2.1
    rw [this]
  · rw [hok2.2]
    have hps := publish_state_stable
      ((handle_reset { (fire m .all_sites_completed).master with
        state := MState.ready }))
    rw [hps.1, handle_reset_state]
  · rw [hok2.2]
    have hps := publish_state_stable
      ((handle_reset { (fire m .all_sites_completed).master with
        state := MState.ready }))
    rw [hps.2.1]
    apply handle_reset_all_inprogress
    show ({ (fire m .all_sites_completed).master with
      state := MState.ready } : Master).sites.all _ = true
    rw [hsi1] at *
    exact hall

lemma cac_taken_err_not_testing (m : Master)
    (hall : (m.sites.all fun p => p.2.state = .completed) = true)
    (hnt : MState.isTesting m.state = false) :
    (check_all_completed m).1.err ≠ none ∧
    (check_all_completed m).1.applies = [] := by
  unfold check_all_completed
  rw [if_pos hall]
  have hvd : validDest m.state .all_sites_completed = none := by
    unfold validDest
    rw [hnt]
    rfl
  have hfire : fire m .all_sites_completed =
      MOut.raise m (.machineErr "all_sites_completed") := by
    unfold fire fireWith
    rw [hvd]
    rfl
  rw [hfire, andThen_err_some _ _ (.machineErr "all_sites_completed") rfl]
  simp [MOut.raise]

lemma cac_applies (m : Master) : (check_all_completed m).1.applies = [] := by
  unfold check_all_completed
  split
  · rcases herr : (fire m .all_sites_completed).err with _ | e
    · rw [andThen_fields _ _ herr]
      simp only []
      rw [(fire_applies_completes m .all_sites_completed).1,
        (fireWith_no_outputs (fire m .all_sites_completed).master
          .all_sitetests_complete (fun m2 => (handle_reset m2, none))).1]
      rfl
    · rw [andThen_err_some _ _ e herr]
      exact (fire_applies_completes m .all_sites_completed).1
  · rfl

lemma testresult_received_target (s s' : TestingSiteModel) (tr : Int)
    (h : s.testresult_received tr = .ok s') :
    s'.state = .waiting_for_idle ∨ s'.state = .completed := by
  unfold TestingSiteModel.testresult_received at h
  split at h <;> cases h <;> simp

lemma status_idle_target (s s' : TestingSiteModel)
    (h : s.status_idle = .ok s') :
    s'.state = .waiting_for_testresult ∨ s'.state = .completed := by
  unfold TestingSiteModel.status_idle at h
  split at h <;> cases h <;> simp

lemma resource_requested_not_inprogress (s : TestingSiteModel)
    (req : ResourceRequest) (h : s.state ≠ .inprogress) :
    s.resource_requested req =
      .error (.machineErr "resource_requested") := by
  unfold TestingSiteModel.resource_requested
  cases hs : s.state <;> simp_all

/-- The guard of `_on_resource_config_applied` as a standalone fact (the
body of claim C7, shared by the C1 development). -/
lemma orca_ignored (m : Master)
    (h : m.state ≠ MState.testing_waiting_for_resource) :
    on_resource_config_applied m = MOut.done m := by
  unfold on_resource_config_applied is_waiting_for_resource
  simp [h]

lemma orca_active (m : Master)
    (h : m.state = MState.testing_waiting_for_resource) :
    (on_resource_config_applied m).err = none ∧
    (on_resource_config_applied m).applies = [] ∧
    (on_resource_config_applied m).master.state = MState.testing_inprogress ∧
    (on_resource_config_applied m).master.sites =
      m.sites.map (fun p =>
        if p.2.state = .waiting_for_resource then
          (p.1, { p.2 with state := .inprogress, resource_request := none })
        else p) := by
  unfold on_resource_config_applied
  have hw : is_waiting_for_resource m = true := by
    unfold is_waiting_for_resource
    simp [h]
  rw [if_neg (by simp [hw])]
  have hvd : validDest m.state .resource_config_applied =
      some .testing_inprogress := by
    unfold validDest
    rw [if_pos h]
  obtain ⟨herr, hstate, hsites, -, -, -, -, hap, -⟩ :=
    fire_ok_fields m .resource_config_applied _ hvd
  rw [andThen_fields _ _ herr]
  refine ⟨rfl, ?_, ?_, ?_⟩
  · simp [MOut.done, hap]
  · simp [MOut.done, hstate]
  · simp [MOut.done, hsites]

lemma self_mem_runStates (es : List MEvent) (m : Master) :
    m ∈ runStates m es := by
  cases es <;> simp [runStates]

lemma afterSiteEvent_eq (m : Master) (sid : String)
    (site' : TestingSiteModel) :
    afterSiteEvent m sid site' =
      match check_all_completed (setSite m sid site') with
      | (o, true) => o
      | (_, false) => check_remaining_waiting (setSite m sid site') := rfl

lemma runEvents_cons (m : Master) (e : MEvent) (es : List MEvent) :
    runEvents m (e :: es) =
      match (mstep m e).err with
      | some er => .error er
      | none =>
        match runEvents (mstep m e).master es with
        | .ok (mf, n) => .ok (mf, (mstep m e).applies.length + n)
        | .error er => .error er := rfl

/-- Behaviour of the shared completion/quorum tail when the pre-state is not
`testing_inprogress`, under a quorum that persists across the step. -/
lemma afterSiteEvent_no_apply (m : Master) (sid : String)
    (site' : TestingSiteModel)
    (hqpost : Quorum (afterSiteEvent m sid site').master = true)
    (herr : (afterSiteEvent m sid site').err = none)
    (hni : m.state ≠ MState.testing_inprogress) :
    (afterSiteEvent m sid site').applies = [] ∧
    (afterSiteEvent m sid site').master.state ≠ MState.testing_inprogress := by
  have hm1s : (setSite m sid site').state = m.state := rfl
  by_cases hall : ((setSite m sid site').sites.all
      fun p => p.2.state = .completed) = true
  · -- completion branch taken
    rcases hc : check_all_completed (setSite m sid site') with ⟨o, b⟩
    have hb : b = true := by
      have : (check_all_completed (setSite m sid site')).2 = true := by
        unfold check_all_completed
        rw [if_pos hall]
      rw [hc] at this
      exact this
    subst hb
    have hred : afterSiteEvent m sid site' = o := by
      rw [afterSiteEvent_eq, hc]
    rw [hred] at herr hqpost ⊢
    by_cases hts : MState.isTesting (setSite m sid site').state = true
    · have hspec := cac_taken_spec (setSite m sid site') hts hall
      rw [hc] at hspec
      exact absurd hqpost
        (fun hq => quorum_false_of_all_inprogress o.master.sites
          hspec.2.2.2 hq)
    · have hErr := cac_taken_err_not_testing (setSite m sid site') hall
        (Bool.eq_false_iff.mpr hts)
      rw [hc] at hErr
      exact absurd herr hErr.1
  · -- completion branch not taken: only the quorum check runs
    have hred : afterSiteEvent m sid site' =
        check_remaining_waiting (setSite m sid site') := by
      rw [afterSiteEvent_eq, cac_not_taken _ hall]
    rw [hred] at herr hqpost ⊢
    rcases crw_cases (setSite m sid site') with hdone | hraise | hemit
    · rw [hdone] at herr hqpost ⊢
      exact ⟨rfl, by simpa [MOut.done, hm1s] using hni⟩
    · exact absurd herr hraise.1
    · exact absurd (hm1s ▸ hemit.2.2.1) hni

/-- Behaviour of the shared completion/quorum tail when the pre-state *is*
`testing_inprogress`, under a quorum that persists across the step. -/
lemma afterSiteEvent_inprogress (m : Master) (sid : String)
    (site' : TestingSiteModel)
    (hqpost : Quorum (afterSiteEvent m sid site').master = true)
    (herr : (afterSiteEvent m sid site').err = none)
    (hip : m.state = MState.testing_inprogress) :
    (afterSiteEvent m sid site').applies.length ≤ 1 ∧
    ((afterSiteEvent m sid site').applies = [] →
      (afterSiteEvent m sid site').master.state = m.state) ∧
    ((afterSiteEvent m sid site').applies ≠ [] →
      (afterSiteEvent m sid site').master.state =
        MState.testing_waiting_for_resource) := by
  have hm1s : (setSite m sid site').state = m.state := rfl
  by_cases hall : ((setSite m sid site').sites.all
      fun p => p.2.state = .completed) = true
  · rcases hc : check_all_completed (setSite m sid site') with ⟨o, b⟩
    have hb : b = true := by
      have : (check_all_completed (setSite m sid site')).2 = true := by
        unfold check_all_completed
        rw [if_pos hall]
      rw [hc] at this
      exact this
    subst hb
    have hred : afterSiteEvent m sid site' = o := by
      rw [afterSiteEvent_eq, hc]
    rw [hred] at herr hqpost ⊢
    have hts : MState.isTesting (setSite m sid site').state = true := by
      rw [hm1s, hip]
      rfl
    have hspec := cac_taken_spec (setSite m sid site') hts hall
    rw [hc] at hspec
    exact absurd hqpost
      (fun hq => quorum_false_of_all_inprogress o.master.sites
        hspec.2.2.2 hq)
  · have hred : afterSiteEvent m sid site' =
        check_remaining_waiting (setSite m sid site') := by
      rw [afterSiteEvent_eq, cac_not_taken _ hall]
    rw [hred] at herr hqpost ⊢
    rcases crw_cases (setSite m sid site') with hdone | hraise | hemit
    · rw [hdone]
      exact ⟨by simp [MOut.done], fun _ => hm1s, fun hne => absurd rfl hne⟩
    · exact absurd herr hraise.1
    · exact ⟨le_of_eq hemit.2.1, fun hap => absurd hap hemit.1,
        fun _ => hemit.2.2.2.2.1⟩

/-- One per-site event under a persisting quorum, pre-state not
`testing_inprogress`: no `apply_resource_config`, and the state cannot
(re-)enter `testing_inprogress`. -/
lemma step_no_apply_of_not_inprogress (m : Master) (e : MEvent)
    (hqpre : Quorum m = true)
    (hqpost : Quorum (mstep m e).master = true)
    (herr : (mstep m e).err = none)
    (hni : m.state ≠ MState.testing_inprogress) :
    (mstep m e).applies = [] ∧
    (mstep m e).master.state ≠ MState.testing_inprogress := by
  cases e with
  | resourceRequest sid req =>
    exfalso
    rcases hget : getSite m sid with e' | site
    · simp only [mstep, handle_resource_request, hget, MOut.raise] at herr
      cases herr
    · have hmem := getSite_mem m sid site hget
      have hns : site.state ≠ SiteState.inprogress :=
        fun hs => (quorumSites_spec m.sites).mp hqpre |>.1 (sid, site) hmem hs
      have hrr := resource_requested_not_inprogress site req hns
      simp only [mstep, handle_resource_request, hget, hrr, MOut.raise] at herr
      cases herr
  | testResult sid tr =>
    rcases hget : getSite m sid with e' | site
    · simp only [mstep, handle_testresult, hget, MOut.raise] at herr
      cases herr
    · rcases htr : site.testresult_received tr with e' | site'
      · simp only [mstep, handle_testresult, hget, htr, MOut.raise] at herr
        cases herr
      · have hred : mstep m (.testResult sid tr) = afterSiteEvent m sid site' := by
          simp only [mstep, handle_testresult, hget, htr]
        rw [hred] at herr hqpost ⊢
        exact afterSiteEvent_no_apply m sid site' hqpost herr hni
  | statusIdle sid =>
    rcases hget : getSite m sid with e' | site
    · simp only [mstep, handle_status_idle, hget, MOut.raise] at herr
      cases herr
    · rcases htr : site.status_idle with e' | site'
      · simp only [mstep, handle_status_idle, hget, htr, MOut.raise] at herr
        cases herr
      · have hred : mstep m (.statusIdle sid) = afterSiteEvent m sid site' := by
          simp only [mstep, handle_status_idle, hget, htr]
        rw [hred] at herr hqpost ⊢
        exact afterSiteEvent_no_apply m sid site' hqpost herr hni
  | configApplied =>
    by_cases hw : m.state = MState.testing_waiting_for_resource
    · exfalso
      have ho := orca_active m hw
      obtain ⟨p, hp, hpw⟩ := (quorumSites_spec m.sites).mp hqpre |>.2
      set p2 : String × TestingSiteModel :=
        (p.1, { p.2 with state := SiteState.inprogress, resource_request := none })
        with hp2
      have hmem2 : p2 ∈ (on_resource_config_applied m).master.sites := by
        rw [ho.2.2.2]
        refine List.mem_map.mpr ⟨p, hp, ?_⟩
        rw [if_pos (by simp [hpw])]
      exact quorum_no_inprogress_member _ _ hmem2 rfl hqpost
    · have hred : mstep m .configApplied = MOut.done m := orca_ignored m hw
      rw [hred]
      exact ⟨rfl, hni⟩

/-- One per-site event under a persisting quorum, pre-state
`testing_inprogress`: at most one `apply_resource_config`; no emission keeps
the state, an emission moves it to `testing_waiting_for_resource`. -/
lemma step_apply_once_of_inprogress (m : Master) (e : MEvent)
    (hqpre : Quorum m = true)
    (hqpost : Quorum (mstep m e).master = true)
    (herr : (mstep m e).err = none)
    (hip : m.state = MState.testing_inprogress) :
    (mstep m e).applies.length ≤ 1 ∧
    ((mstep m e).applies = [] → (mstep m e).master.state = m.state) ∧
    ((mstep m e).applies ≠ [] →
      (mstep m e).master.state = MState.testing_waiting_for_resource) := by
  cases e with
  | resourceRequest sid req =>
    exfalso
    rcases hget : getSite m sid with e' | site
    · simp only [mstep, handle_resource_request, hget, MOut.raise] at herr
      cases herr
    · have hmem := getSite_mem m sid site hget
      have hns : site.state ≠ SiteState.inprogress :=
        fun hs => (quorumSites_spec m.sites).mp hqpre |>.1 (sid, site) hmem hs
      have hrr := resource_requested_not_inprogress site req hns
      simp only [mstep, handle_resource_request, hget, hrr, MOut.raise] at herr
      cases herr
  | testResult sid tr =>
    rcases hget : getSite m sid with e' | site
    · simp only [mstep, handle_testresult, hget, MOut.raise] at herr
      cases herr
    · rcases htr : site.testresult_received tr with e' | site'
      · simp only [mstep, handle_testresult, hget, htr, MOut.raise] at herr
        cases herr
      · have hred : mstep m (.testResult sid tr) = afterSiteEvent m sid site' := by
          simp only [mstep, handle_testresult, hget, htr]
        rw [hred] at herr hqpost ⊢
        exact afterSiteEvent_inprogress m sid site' hqpost herr hip
  | statusIdle sid =>
    rcases hget : getSite m sid with e' | site
    · simp only [mstep, handle_status_idle, hget, MOut.raise] at herr
      cases herr
    · rcases htr : site.status_idle with e' | site'
      · simp only [mstep, handle_status_idle, hget, htr, MOut.raise] at herr
        cases herr
      · have hred : mstep m (.statusIdle sid) = afterSiteEvent m sid site' := by
          simp only [mstep, handle_status_idle, hget, htr]
        rw [hred] at herr hqpost ⊢
        exact afterSiteEvent_inprogress m sid site' hqpost herr hip
  | configApplied =>
    have hred : mstep m .configApplied = MOut.done m :=
      orca_ignored m (by rw [hip]; intro h; cases h)
    rw [hred]
    exact ⟨by simp [MOut.done], fun _ => rfl, fun hne => absurd rfl hne⟩

/-- Under a quorum persisting along the whole run, a run started outside
`testing_inprogress` performs no `apply_resource_config` at all. -/
lemma runEvents_no_apply (es : List MEvent) : ∀ (m : Master),
    (∀ s ∈ runStates m es, Quorum s = true) →
    m.state ≠ MState.testing_inprogress →
    ∀ mf n, runEvents m es = .ok (mf, n) → n = 0 := by
  induction es with
  | nil =>
    intro m _ _ mf n h
    cases h
    rfl
  | cons e es ih =>
    intro m hq hni mf n h
    have hqm : Quorum m = true := hq m (by simp [runStates])
    rw [runEvents_cons] at h
    rcases herr : (mstep m e).err with _ | er
    · simp only [herr] at h
      have hqpost : Quorum (mstep m e).master = true := by
        apply hq
        unfold runStates
        exact List.mem_cons_of_mem m (self_mem_runStates es (mstep m e).master)
      have hstep := step_no_apply_of_not_inprogress m e hqm hqpost herr hni
      rcases hrun : runEvents (mstep m e).master es with er2 | ⟨mf2, n2⟩ <;>
        simp only [hrun] at h
      · cases h
      · cases h
        have hn2 := ih (mstep m e).master
          (fun s hs => hq s (List.mem_cons_of_mem m hs)) hstep.2 _ n2 hrun
        rw [hstep.1, hn2]
        rfl
    · simp only [herr] at h
      cases h

/-- Under a quorum persisting along the whole run, at most one
`apply_resource_config` happens. -/
lemma runEvents_apply_le_one (es : List MEvent) : ∀ (m : Master),
    (∀ s ∈ runStates m es, Quorum s = true) →
    ∀ mf n, runEvents m es = .ok (mf, n) → n ≤ 1 := by
  induction es with
  | nil =>
    intro m _ mf n h
    cases h
    exact Nat.zero_le 1
  | cons e es ih =>
    intro m hq mf n h
    by_cases hni : m.state = MState.testing_inprogress
    · have hqm : Quorum m = true := hq m (by simp [runStates])
      rw [runEvents_cons] at h
      rcases herr : (mstep m e).err with _ | er
      · simp only [herr] at h
        have hqpost : Quorum (mstep m e).master = true := by
          apply hq
          unfold runStates
          exact List.mem_cons_of_mem m (self_mem_runStates es (mstep m e).master)
        have hstep := step_apply_once_of_inprogress m e hqm hqpost herr hni
        rcases hrun : runEvents (mstep m e).master es with er2 | ⟨mf2, n2⟩ <;>
          simp only [hrun] at h
        · cases h
        · cases h
          by_cases hap : (mstep m e).applies = []
          · have hn2 := ih (mstep m e).master
              (fun s hs => hq s (List.mem_cons_of_mem m hs)) _ n2 hrun
            rw [hap]
            simpa using hn2
          · have hst := hstep.2.2 hap
            have hn2 : n2 = 0 := runEvents_no_apply es (mstep m e).master
              (fun s hs => hq s (List.mem_cons_of_mem m hs))
              (by rw [hst]; intro hcon; cases hcon) _ n2 hrun
            have hlen := hstep.1
            omega
      · simp only [herr] at h
        cases h
    · rw [runEvents_no_apply (e :: es) m hq hni mf n h]
      exact Nat.zero_le 1

lemma not_inprogress_of_any_false (l : List (String × TestingSiteModel))
    (h : (l.any fun p => p.2.state = .inprogress) = false)
    (p : String × TestingSiteModel) (hp : p ∈ l) :
    p.2.state ≠ SiteState.inprogress := by
  intro hps
  have : (l.any fun p => p.2.state = .inprogress) = true :=
    List.any_eq_true.mpr ⟨p, hp, by simp [hps]⟩
  rw [h] at this
  cases this

lemma crw_emission_sites (m : Master)
    (hap : (check_remaining_waiting m).applies ≠ []) :
    ∀ p ∈ (check_remaining_waiting m).master.sites,
      p.2.state ≠ SiteState.inprogress := by
  rcases crw_cases m with hdone | hraise | hemit
  · rw [hdone] at hap
    exact absurd rfl hap
  · exact absurd hraise.2.1 hap
  · intro p hp
    rw [hemit.2.2.2.2.2.1] at hp
    exact not_inprogress_of_any_false m.sites hemit.2.2.2.2.2.2 p hp

lemma afterSiteEvent_emission_sites (m : Master) (sid : String)
    (site' : TestingSiteModel)
    (hap : (afterSiteEvent m sid site').applies ≠ []) :
    ∀ p ∈ (afterSiteEvent m sid site').master.sites,
      p.2.state ≠ SiteState.inprogress := by
  by_cases hall : ((setSite m sid site').sites.all
      fun p => p.2.state = .completed) = true
  · exfalso
    rcases hc : check_all_completed (setSite m sid site') with ⟨o, b⟩
    have hb : b = true := by
      have : (check_all_completed (setSite m sid site')).2 = true := by
        unfold check_all_completed
        rw [if_pos hall]
      rw [hc] at this
      exact this
    subst hb
    have hred : afterSiteEvent m sid site' = o := by
      rw [afterSiteEvent_eq, hc]
    have happ := cac_applies (setSite m sid site')
    rw [hc] at happ
    rw [hred, happ] at hap
    exact absurd rfl hap
  · have hred : afterSiteEvent m sid site' =
        check_remaining_waiting (setSite m sid site') := by
      rw [afterSiteEvent_eq, cac_not_taken _ hall]
    rw [hred] at hap ⊢
    exact crw_emission_sites (setSite m sid site') hap

/-- **C1**: (i) along any run of per-site events during which the quorum
condition — every per-site sub-FSM non-`inprogress` and at least one
`waiting_for_resource` — holds at *every* state the run passes through,
`apply_resource_config` is invoked at most once (so each distinct quorum
triggers at most one resource configuration); (ii) whenever a step emits an
`apply_resource_config`, no per-site sub-FSM is in `inprogress` at the
moment of the invocation (the sub-FSMs do not change between the emission
and the end of the step). -/
theorem C1_apply_resource_config_once_per_quorum :
    (∀ (m : Master) (es : List MEvent) (mf : Master) (n : Nat),
        (∀ s ∈ runStates m es, Quorum s = true) →
        runEvents m es = .ok (mf, n) → n ≤ 1) ∧
    (∀ (m : Master) (e : MEvent), (mstep m e).applies ≠ [] →
        ∀ p ∈ (mstep m e).master.sites,
          p.2.state ≠ SiteState.inprogress) := by
  constructor
  · intro m es mf n hq h
    exact runEvents_apply_le_one es m hq mf n h
  · intro m e hap
    cases e with
    | resourceRequest sid req =>
      rcases hget : getSite m sid with e' | site
      · rw [show mstep m (.resourceRequest sid req) = MOut.raise m e' by
          simp only [mstep, handle_resource_request, hget]] at hap
        exact absurd rfl hap
      · rcases hrr : site.resource_requested req with e' | site'
        · rw [show mstep m (.resourceRequest sid req) = MOut.raise m e' by
            simp only [mstep, handle_resource_request, hget, hrr]] at hap
          exact absurd rfl hap
        · rcases hfind : (setSite m sid site').sites.find? (mismatchPred req)
            with _ | off
          · have hred : mstep m (.resourceRequest sid req) =
                check_remaining_waiting (setSite m sid site') := by
              simp only [mstep, handle_resource_request, hget, hrr, hfind]
            rw [hred] at hap ⊢
            exact crw_emission_sites (setSite m sid site') hap
          · rw [show mstep m (.resourceRequest sid req) =
                MOut.raise (setSite m sid site') (.mismatchErr sid off.1) by
              simp only [mstep, handle_resource_request, hget, hrr, hfind]]
              at hap
            exact absurd rfl hap
    | testResult sid tr =>
      rcases hget : getSite m sid with e' | site
      · rw [show mstep m (.testResult sid tr) = MOut.raise m e' by
          simp only [mstep, handle_testresult, hget]] at hap
        exact absurd rfl hap
      · rcases htr : site.testresult_received tr with e' | site'
        · rw [show mstep m (.testResult sid tr) = MOut.raise m e' by
            simp only [mstep, handle_testresult, hget, htr]] at hap
          exact absurd rfl hap
        · have hred : mstep m (.testResult sid tr) =
              afterSiteEvent m sid site' := by
            simp only [mstep, handle_testresult, hget, htr]
          rw [hred] at hap ⊢
          exact afterSiteEvent_emission_sites m sid site' hap
    | statusIdle sid =>
      rcases hget : getSite m sid with e' | site
      · rw [show mstep m (.statusIdle sid) = MOut.raise m e' by
          simp only [mstep, handle_status_idle, hget]] at hap
        exact absurd rfl hap
      · rcases htr : site.status_idle with e' | site'
        · rw [show mstep m (.statusIdle sid) = MOut.raise m e' by
            simp only [mstep, handle_status_idle, hget, htr]] at hap
          exact absurd rfl hap
        · have hred : mstep m (.statusIdle sid) =
              afterSiteEvent m sid site' := by
            simp only [mstep, handle_status_idle, hget, htr]
          rw [hred] at hap ⊢
          exact afterSiteEvent_emission_sites m sid site' hap
    | configApplied =>
      by_cases hw : m.state = MState.testing_waiting_for_resource
      · have ho := orca_active m hw
        rw [show (mstep m .configApplied).applies =
            (on_resource_config_applied m).applies from rfl, ho.2.1] at hap
        exact absurd rfl hap
      · rw [show mstep m .configApplied = MOut.done m from
          orca_ignored m hw] at hap
        exact absurd rfl hap

/-- Witness for C1: the step that completes the quorum
(`status_idle(s2)` while `s1` waits for the resource) applies the resource
configuration exactly once, and at the moment of the invocation no site is
`inprogress`. -/
theorem C1_apply_resource_config_once_per_quorum_witness :
    (1 : Nat) ≤ 1 ∧
    ∀ p ∈ (mstep mQuorumStep (MEvent.statusIdle "s2")).master.sites,
      p.2.state ≠ SiteState.inprogress := by
  have h := C1_apply_resource_config_once_per_quorum
  refine ⟨h.1 mQuorumStep [MEvent.statusIdle "s2"] mQuorumStepAfter 1
    (by decide) rfl, ?_⟩
  intro p hp
  exact h.2 mQuorumStep (MEvent.statusIdle "s2") (by decide) p hp

end ATEMaster
